import Mathlib

/-!
Verification development for the DRM output pipeline of the jay compositor
(src/src/backends/metal/video.rs).  The Rust code is shallowly embedded:
pure decision logic becomes Lean functions, interior-mutability cells become
explicit record updates, kernel ioctls and GPU calls become oracle fields of
an environment record, and fallible or panicking code returns Option/Except.
Machine integers are modeled as Nat/Int with explicit reductions mod 2^32
where the Rust code uses u32 arithmetic.
-/

/-! ### Connector front-end state machine (video.rs, FrontState / send_event) -/

/-- `FrontState` from video.rs lines 390-396. -/
inductive FrontState
  | removed
  | disconnected
  | connected (nonDesktop : Bool)
  | unavailable
deriving DecidableEq, Fintype

/-- The connector events handled by `MetalConnector::send_event`
(video.rs lines 1061-1131).  Payloads that do not influence the state
machine (monitor info, the mode, the cursor handle) are dropped. -/
inductive CEvent
  | connectedEv (nonDesktop : Bool)
  | hardwareCursor
  | modeChanged
  | disconnectedEv
  | removedEv
  | unavailableEv
  | availableEv
deriving DecidableEq, Fintype

/-- Result of `send_event`: the state afterwards, whether the event was
forwarded upward via `on_change.send_event`, and whether an error was
logged (the event was dropped). -/
structure SendRes where
  state : FrontState
  delivered : Bool
  logged : Bool
deriving DecidableEq

/-- `MetalConnector::send_event` (video.rs lines 1061-1131). -/
def sendEvent (s : FrontState) (e : CEvent) : SendRes :=
  match e with
  | .connectedEv nd =>
    match s with
    | .disconnected => ⟨.connected nd, true, false⟩
    | _ => ⟨s, false, true⟩
  | .hardwareCursor =>
    match s with
    | .connected false => ⟨s, true, false⟩
    | _ => ⟨s, false, true⟩
  | .modeChanged =>
    match s with
    | .connected false => ⟨s, true, false⟩
    | _ => ⟨s, false, true⟩
  | .disconnectedEv =>
    match s with
    | .connected _ => ⟨.disconnected, true, false⟩
    | .unavailable => ⟨.disconnected, true, false⟩
    | _ => ⟨s, false, true⟩
  | .removedEv =>
    match s with
    | .disconnected => ⟨.removed, true, false⟩
    | _ => ⟨s, false, true⟩
  | .unavailableEv =>
    match s with
    | .connected true => ⟨.unavailable, true, false⟩
    | _ => ⟨s, false, true⟩
  | .availableEv =>
    match s with
    | .unavailable => ⟨.connected true, true, false⟩
    | _ => ⟨s, false, true⟩

/-- `MetalConnector::send_hardware_cursor` (video.rs lines 590-615): the
hardware-cursor event is forwarded only in state Connected with
non_desktop = false; in every other state the function returns early. -/
def sendHardwareCursorDelivers (s : FrontState) : Bool :=
  match s with
  | .connected false => true
  | _ => false

/-- Following the words of claim C6: the allowed front-end transitions are
Disconnected to Connected on a connected event, Connected or Unavailable to
Disconnected, Disconnected to Removed, Connected non-desktop to Unavailable,
and Unavailable to Connected non-desktop; additionally HardwareCursor and
ModeChanged events are delivered (without a state change) exactly in state
Connected desktop. -/
def claimAllowed (s : FrontState) (e : CEvent) : Bool :=
  match s, e with
  | .disconnected, .connectedEv _ => true
  | .connected _, .disconnectedEv => true
  | .unavailable, .disconnectedEv => true
  | .disconnected, .removedEv => true
  | .connected true, .unavailableEv => true
  | .unavailable, .availableEv => true
  | .connected false, .hardwareCursor => true
  | .connected false, .modeChanged => true
  | _, _ => false

/-- Following the words of claim C6: the target state of each allowed
transition (for states and events where `claimAllowed` is false the value
is irrelevant and defaults to the current state). -/
def claimTarget (s : FrontState) (e : CEvent) : FrontState :=
  match s, e with
  | _, .connectedEv nd => .connected nd
  | _, .disconnectedEv => .disconnected
  | _, .removedEv => .removed
  | _, .unavailableEv => .unavailable
  | _, .availableEv => .connected true
  | _, .hardwareCursor => s
  | _, .modeChanged => s

/-! ### CRTC index masks (video.rs, create_crtc / create_encoder / MetalPlane) -/

/-- Left shift of a `u32` as Rust evaluates it when overflow checks are
disabled: the shift amount is reduced mod the bit width and the result is
kept in 32 bits.  Models `1 << idx` in `create_crtc` (video.rs line 1545)
and `create_encoder` (line 1529), where the masks have type `u32`
(`possible_crtcs: u32`, video.rs line 1304). -/
def shlU32 (x n : Nat) : Nat := (x <<< (n % 32)) % 2 ^ 32

/-- Whether the Rust expression `1u32 << n` overflows (panics when overflow
checks are enabled). -/
def shlU32Overflows (n : Nat) : Bool := 32 ≤ n

/-- The compatibility mask bit computed for a CRTC index, `1 << idx`
(video.rs line 1545). -/
def crtcMask (idx : Nat) : Nat := shlU32 1 idx

/-- Modelled from the spec: `BitflagsExt::contains` (utils/bitflags.rs is
not part of the sources) tests that all bits of the mask are set, the
usual meaning of testing a bit mask against `possible_crtcs`. -/
def maskContains (value mask : Nat) : Bool := value &&& mask == mask

/-- The plane-to-CRTC compatibility test of `create_crtc` (video.rs lines
1545-1551): `plane.possible_crtcs.contains(1 << idx)`. -/
def planeCompatibleWithCrtc (possibleCrtcs idx : Nat) : Bool :=
  maskContains possibleCrtcs (crtcMask idx)

/-- The encoder-to-CRTC compatibility test of `create_encoder` (video.rs
lines 1527-1532): `info.possible_crtcs.contains(1 << crtc.idx)`. -/
def encoderCompatibleWithCrtc (possibleCrtcs idx : Nat) : Bool :=
  maskContains possibleCrtcs (crtcMask idx)

/-! ### Claim C6 -/

/-- C6: for every connector state and event, an event outside the allowed
front-end transitions for the current state is logged and dropped leaving
the state unchanged; the allowed transitions are exactly those enumerated
by the claim (encoded in `claimAllowed`/`claimTarget`), and HardwareCursor
and ModeChanged events are delivered upward only in state
Connected desktop, both by `send_event` and by `send_hardware_cursor`. -/
theorem C6_front_state_machine :
    ∀ (s : FrontState) (e : CEvent),
      sendEvent s e =
        (if claimAllowed s e then ⟨claimTarget s e, true, false⟩
         else ⟨s, false, true⟩) ∧
      sendHardwareCursorDelivers s = claimAllowed s .hardwareCursor := by
  decide

/-! ### Claim C9 -/

/-- C9 counterexample: at CRTC index 32 the construction `1u32 << idx`
overflows, and with overflow checks disabled the computed mask aliases the
mask of index 0, so a plane whose `possible_crtcs` mask is `1` (only CRTC
index 0) is reported compatible with CRTC index 32 even though bit 32 of
that mask is clear.  The claim that the mask construction is well defined
and does not overflow for indices at and above 32 is therefore false. -/
theorem C9_cex_mask_overflow_at_32 :
    shlU32Overflows 32 = true ∧
    crtcMask 32 = crtcMask 0 ∧
    planeCompatibleWithCrtc 1 32 = true ∧
    Nat.testBit 1 32 = false := by
  refine ⟨rfl, by decide, by decide, by decide⟩

/-- C9 amended: the code keeps `possible_crtcs` in a fixed 32-bit mask, so
the shift `1 << idx` is well defined and exact only for CRTC indices below
32: there it does not overflow, the mask is the single bit `2 ^ idx`, and
the plane and encoder compatibility tests reduce to testing that single
bit of `possible_crtcs`.  For indices at and above 32 the shift overflows
(see the counterexample). -/
theorem C9_amended_mask_below_32 (idx m : Nat) (h : idx < 32) :
    shlU32Overflows idx = false ∧
    crtcMask idx = 2 ^ idx ∧
    planeCompatibleWithCrtc m idx = maskContains m (2 ^ idx) ∧
    encoderCompatibleWithCrtc m idx = maskContains m (2 ^ idx) := by
  have hmod : idx % 32 = idx := Nat.mod_eq_of_lt h
  have hmask : crtcMask idx = 2 ^ idx := by
    unfold crtcMask shlU32
    rw [hmod, Nat.shiftLeft_eq, one_mul]
    exact Nat.mod_eq_of_lt (Nat.pow_lt_pow_right one_lt_two h)
  refine ⟨?_, hmask, ?_, ?_⟩
  · simp [shlU32Overflows, Nat.not_le.mpr h]
  · unfold planeCompatibleWithCrtc
    rw [hmask]
  · unfold encoderCompatibleWithCrtc
    rw [hmask]

/-- C9 witness: the amended theorem instantiated at index 5 and mask 2^5. -/
theorem C9_witness_index_5 :
    5 < 32 ∧
    (shlU32Overflows 5 = false ∧
     crtcMask 5 = 2 ^ 5 ∧
     planeCompatibleWithCrtc 32 5 = maskContains 32 (2 ^ 5) ∧
     encoderCompatibleWithCrtc 32 5 = maskContains 32 (2 ^ 5)) :=
  ⟨by decide, C9_amended_mask_below_32 5 32 (by decide)⟩

/-! ### Atomic-commit property changes -/

/-- The kernel property names that the metal backend writes through
`Change::change_object` (resolved per object in the source; a change is
identified here by the target object id and the property name). -/
inductive PropName
  | fbId
  | crtcId
  | crtcX
  | crtcY
  | crtcW
  | crtcH
  | srcX
  | srcY
  | srcW
  | srcH
  | inFenceFd
  | active
  | modeId
  | outFencePtr
deriving DecidableEq

/-- One property change inside an atomic commit.  Values are modeled as
integers; `-1` stands for the u64 bit pattern that Rust produces for
`-1i32 as u64` (all bits set, meaning "no fence"). -/
structure PropChange where
  obj : Nat
  prop : PropName
  value : Int
deriving DecidableEq

/-! ### Present engine (video.rs, MetalConnector::present) -/

/-- `DirectScanoutData` (video.rs lines 550-568) restricted to the fields
the present path reads: the dmabuf id (cache key), the imported DRM
framebuffer id, the sync file extracted from the acquire sync, and the
`DirectScanoutPosition`. -/
structure DirectScanoutDataM where
  dmaBufId : Nat
  fbId : Nat
  syncFile : Option Int
  crtcX : Int
  crtcY : Int
  crtcWidth : Int
  crtcHeight : Int
  srcWidth : Int
  srcHeight : Int
deriving DecidableEq

/-- `PresentFb` (video.rs lines 570-575). -/
structure PresentFbM where
  fbId : Nat
  directScanoutData : Option DirectScanoutDataM
  syncFile : Option Int
deriving DecidableEq

/-- Outcome of an atomic commit ioctl, as distinguished by the error
handling in `present` (video.rs lines 987-1015). -/
inductive CommitOutcome
  | ok
  | eacces
  | otherError
deriving DecidableEq

/-- Result of a call to `present`: `Ok(())`, a propagated prepare/render
error, or `Err(MetalError::Commit(..))`. -/
inductive PresentOutcome
  | ok
  | prepareError
  | commitError
deriving DecidableEq

/-- The mutable state of a `MetalConnector` (video.rs lines 398-449) that
the present path reads or writes.  The direct-scanout cache
`scanout_buffers` maps a dmabuf id to its cache entry; each entry keeps a
weak texture reference (assumed alive here, `trim_scanout_cache` removes
dead entries) and an optional DRM framebuffer, modeled as `Option Nat`. -/
structure ConnectorState where
  hasDamage : Bool
  cursorChanged : Bool
  canPresent : Bool
  hasCrtc : Bool
  crtcId : Nat
  crtcActive : Bool
  hasPrimaryPlane : Bool
  planeId : Nat
  planeModeW : Int
  planeModeH : Int
  hasBuffers : Bool
  nextBuffer : Nat
  hasCursorPlane : Bool
  cursorPlaneId : Nat
  cursorEnabled : Bool
  cursorSwapBuffer : Bool
  cursorFrontBuffer : Nat
  cursorSyncFile : Option Int
  cursorX : Int
  cursorY : Int
  scanoutCache : List (Nat × Option Nat)
  pendingFeedback : Nat
  nextFramebuffer : Option PresentFbM
  directScanoutActive : Bool
  isNvidia : Bool
deriving DecidableEq

/-- Oracle environment for one call to `present`: the outcomes of the
kernel ioctls and GPU operations the call performs, and the data computed
by the parts of `prepare_present_fb` that live outside this model (the
render pass and the direct-scanout probe, the latter modeled separately as
`prepareDirectScanout`).  `firstCommit` answers the page-flip commit of
the outer call, `retryCommit` the commit of the retry without direct
scanout. -/
structure PresentEnv where
  renderContextOk : Bool
  hasOutputNode : Bool
  directScanoutEnabledDev : Bool
  probe : Option DirectScanoutDataM
  renderFbId : Nat
  renderSyncFile : Option Int
  renderPassOk : Bool
  cursorCopyOk : Bool
  cursorCopySync : Option Int
  cursorFbId : Nat → Nat
  cursorWidth : Int
  cursorHeight : Int
  firstCommit : CommitOutcome
  retryCommit : CommitOutcome

/-- Lookup in the direct-scanout cache (`scanout_buffers.get`). -/
def cacheLookup (cache : List (Nat × Option Nat)) (k : Nat) : Option (Option Nat) :=
  (cache.find? (fun e => e.1 == k)).map (fun e => e.2)

/-- The cache eviction of the failed-commit path (video.rs lines 998-1007):
the entry for the dmabuf is replaced by one that keeps the texture but
drops the DRM framebuffer. -/
def cacheClearFb (cache : List (Nat × Option Nat)) (k : Nat) : List (Nat × Option Nat) :=
  cache.map (fun e => if e.1 = k then (e.1, none) else e)

/-- The primary-plane property changes built by `present` for a new
framebuffer (video.rs lines 912-943).  `src_w`/`src_h` are written in the
16.16 fixed-point format; `in_fence_fd` is suppressed on NVIDIA. -/
def planePropChanges (s : ConnectorState) (fb : PresentFbM) : List PropChange :=
  match (match fb.directScanoutData with
    | none => (0, 0, s.planeModeW, s.planeModeH, s.planeModeW, s.planeModeH)
    | some d => (d.crtcX, d.crtcY, d.crtcWidth, d.crtcHeight, d.srcWidth, d.srcHeight) :
      Int × Int × Int × Int × Int × Int) with
  | (cx, cy, cw, ch, sw, sh) =>
    let inFence : Int := match fb.syncFile with | some f => f | none => -1
    [⟨s.planeId, .fbId, fb.fbId⟩,
     ⟨s.planeId, .srcW, sw * 65536⟩,
     ⟨s.planeId, .srcH, sh * 65536⟩,
     ⟨s.planeId, .crtcX, cx⟩,
     ⟨s.planeId, .crtcY, cy⟩,
     ⟨s.planeId, .crtcW, cw⟩,
     ⟨s.planeId, .crtcH, ch⟩] ++
    (if !s.isNvidia then [⟨s.planeId, .inFenceFd, inFence⟩] else [])

/-- The damage section of `present` (video.rs lines 902-945) together with
the state effects of `prepare_present_fb` (lines 801-878): when there is
damage and an output node, the direct-scanout probe runs (only when
`try_direct_scanout` is set and enabled on the render device, its outcome
given by `env.probe`), a successful probe records its framebuffer in the
scanout cache if absent, `direct_scanout_active` is updated, and either the
probe result or the freshly rendered buffer becomes the new `PresentFb`.
A render-pass failure propagates as an error carrying the state. -/
def damageStep (tryDirectScanout : Bool) (env : PresentEnv) (s : ConnectorState) :
    Except ConnectorState (ConnectorState × Option PresentFbM) :=
  if s.hasDamage && env.hasOutputNode then
    let dsd := if tryDirectScanout && env.directScanoutEnabledDev then env.probe else none
    let cache2 := match dsd with
      | some d =>
        if cacheLookup s.scanoutCache d.dmaBufId = none then
          (d.dmaBufId, some d.fbId) :: s.scanoutCache
        else s.scanoutCache
      | none => s.scanoutCache
    let s1 := { s with scanoutCache := cache2, directScanoutActive := dsd.isSome }
    match dsd with
    | some d => .ok (s1, some ⟨d.fbId, some d, d.syncFile⟩)
    | none =>
      if env.renderPassOk then .ok (s1, some ⟨env.renderFbId, none, env.renderSyncFile⟩)
      else .error s1
  else .ok (s, none)

/-- The cursor section of `present` (video.rs lines 947-986): when the
cursor changed and a cursor plane exists, either the cursor plane is
programmed from the (possibly advanced) front buffer, or it is disabled.
Returns whether a cursor buffer swap is pending and the cursor property
changes; a failing `copy_to_dev` propagates as an error. -/
def cursorStep (env : PresentEnv) (s : ConnectorState) :
    Except Unit (Bool × List PropChange) :=
  if s.cursorChanged && s.hasCursorPlane then
    if s.cursorEnabled then
      let csb := s.cursorSwapBuffer
      let front := if csb then s.cursorFrontBuffer + 1 else s.cursorFrontBuffer
      if csb && !env.cursorCopyOk then .error ()
      else
        let csf : Option Int := if csb then env.cursorCopySync else none
        let inFence : Int := match csf with | some f => f | none => -1
        let changes :=
          [⟨s.cursorPlaneId, .fbId, env.cursorFbId (front % 3)⟩,
           ⟨s.cursorPlaneId, .crtcId, s.crtcId⟩,
           ⟨s.cursorPlaneId, .crtcX, s.cursorX⟩,
           ⟨s.cursorPlaneId, .crtcY, s.cursorY⟩,
           ⟨s.cursorPlaneId, .crtcW, env.cursorWidth⟩,
           ⟨s.cursorPlaneId, .crtcH, env.cursorHeight⟩,
           ⟨s.cursorPlaneId, .srcX, 0⟩,
           ⟨s.cursorPlaneId, .srcY, 0⟩,
           ⟨s.cursorPlaneId, .srcW, env.cursorWidth * 65536⟩,
           ⟨s.cursorPlaneId, .srcH, env.cursorHeight * 65536⟩] ++
          (if !s.isNvidia then [⟨s.cursorPlaneId, .inFenceFd, inFence⟩] else [])
        .ok (csb, changes)
    else
      .ok (false, [⟨s.cursorPlaneId, .fbId, 0⟩, ⟨s.cursorPlaneId, .crtcId, 0⟩])
  else .ok (false, [])

/-- The commit and error handling of `present` (video.rs lines 987-1032).
The returned list collects the change set of every commit attempted during
the call (the retry contributes its own).  On EACCES the presentation
feedback is discarded and the call succeeds; on another error with a
direct-scanout framebuffer in flight the call retries once (`retry` is the
recursive `present(false)` call) and on a successful retry drops the DRM
framebuffer from the cache entry; on success the counters and flags are
updated exactly as in the source. -/
def commitStage
    (retry : ConnectorState → ConnectorState × PresentOutcome × List (List PropChange))
    (commitResult : CommitOutcome) (s1 : ConnectorState)
    (newFb : Option PresentFbM) (changes : List PropChange) (cursorSwap : Bool) :
    ConnectorState × PresentOutcome × List (List PropChange) :=
  match commitResult with
  | .eacces => ({ s1 with pendingFeedback := 0 }, .ok, [changes])
  | .otherError =>
    match newFb with
    | some fb =>
      match fb.directScanoutData with
      | some dsd =>
        match retry s1 with
        | (s2, .ok, chs2) =>
          ({ s2 with scanoutCache := cacheClearFb s2.scanoutCache dsd.dmaBufId },
           .ok, changes :: chs2)
        | (s2, _, chs2) =>
          ({ s2 with pendingFeedback := 0 }, .commitError, changes :: chs2)
      | none => ({ s1 with pendingFeedback := 0 }, .commitError, [changes])
    | none => ({ s1 with pendingFeedback := 0 }, .commitError, [changes])
  | .ok =>
    let s2 := match newFb with
      | some fb =>
        { s1 with
          nextFramebuffer := some fb,
          nextBuffer :=
            if fb.directScanoutData.isNone then s1.nextBuffer + 1 else s1.nextBuffer }
      | none => s1
    let s3 :=
      if cursorSwap then
        { s2 with
          cursorSwapBuffer := false,
          cursorFrontBuffer := s2.cursorFrontBuffer + 1,
          cursorSyncFile := none }
      else s2
    ({ s3 with canPresent := false, hasDamage := false, cursorChanged := false },
     .ok, [changes])

/-- The plane changes contributed by the damage section: those of the new
framebuffer when one was prepared. -/
def newFbChanges (s1 : ConnectorState) (newFb : Option PresentFbM) : List PropChange :=
  match newFb with
  | some fb => planePropChanges s1 fb
  | none => []

/-- `MetalConnector::present` (video.rs lines 880-1033), parameterized by
the recursive retry call so that the single recursion (from
`try_direct_scanout = true` to `false`) can be unfolded explicitly.  The
early returns of lines 880-899 come first, then the damage section, the
cursor section, and the commit. -/
def presentBody
    (retry : ConnectorState → ConnectorState × PresentOutcome × List (List PropChange))
    (tryDirectScanout : Bool) (commitResult : CommitOutcome)
    (env : PresentEnv) (s : ConnectorState) :
    ConnectorState × PresentOutcome × List (List PropChange) :=
  if !s.hasCrtc then (s, .ok, [])
  else if (!s.hasDamage && !s.cursorChanged) || !s.canPresent then (s, .ok, [])
  else if !s.crtcActive then (s, .ok, [])
  else if !s.hasPrimaryPlane then (s, .ok, [])
  else if !s.hasBuffers then (s, .ok, [])
  else if s.hasDamage && !env.renderContextOk then (s, .ok, [])
  else
    match damageStep tryDirectScanout env s with
    | .error s1 => (s1, .prepareError, [])
    | .ok (s1, newFb) =>
      let damageChanges := newFbChanges s1 newFb
      match cursorStep env s1 with
      | .error _ => (s1, .prepareError, [])
      | .ok (cursorSwap, cursorChanges) =>
        commitStage retry commitResult s1 newFb (damageChanges ++ cursorChanges) cursorSwap

/-- The retry `self.present(false)` (video.rs line 997): direct scanout is
disabled, so the damage path never produces direct-scanout data and the
retry never recurses further; the dummy retry argument is unreachable. -/
def presentSecond (env : PresentEnv) (s : ConnectorState) :
    ConnectorState × PresentOutcome × List (List PropChange) :=
  presentBody (fun s2 => (s2, .commitError, [])) false env.retryCommit env s

/-- `present(true)` as called from the present loop (video.rs line 581). -/
def present (env : PresentEnv) (s : ConnectorState) :
    ConnectorState × PresentOutcome × List (List PropChange) :=
  presentBody (presentSecond env) true env.firstCommit env s

/-! ### Supporting lemmas about the present path -/

theorem damageStep_ok (t : Bool) (env : PresentEnv) (s : ConnectorState)
    (h : env.renderPassOk = true) :
    ∃ p, damageStep t env s = .ok p ∧
      p.1.hasDamage = s.hasDamage ∧
      p.1.cursorChanged = s.cursorChanged ∧
      p.1.canPresent = s.canPresent ∧
      p.1.nextBuffer = s.nextBuffer ∧
      p.1.pendingFeedback = s.pendingFeedback ∧
      p.1.cursorSwapBuffer = s.cursorSwapBuffer ∧
      p.1.cursorFrontBuffer = s.cursorFrontBuffer ∧
      p.1.cursorSyncFile = s.cursorSyncFile ∧
      p.1.isNvidia = s.isNvidia ∧
      p.1.hasCursorPlane = s.hasCursorPlane ∧
      p.1.cursorEnabled = s.cursorEnabled ∧
      p.1.cursorChanged = s.cursorChanged := by
  unfold damageStep
  by_cases hd : (s.hasDamage && env.hasOutputNode) = true
  · simp only [hd, if_true]
    cases hdsd : (if t && env.directScanoutEnabledDev then env.probe else none) with
    | none => simp [h]
    | some d => simp
  · simp only [Bool.not_eq_true] at hd
    simp [hd]

theorem cursorStep_ok (env : PresentEnv) (s : ConnectorState)
    (h : env.cursorCopyOk = true) :
    ∃ q, cursorStep env s = .ok q := by
  unfold cursorStep
  by_cases h1 : (s.cursorChanged && s.hasCursorPlane) = true
  · by_cases h2 : s.cursorEnabled = true
    · simp [h1, h2, h]
    · simp only [Bool.not_eq_true] at h2
      simp [h1, h2]
  · simp only [Bool.not_eq_true] at h1
    simp [h1]

/-! ### Claim C4 -/

/-- C4: if the non-blocking page-flip commit fails with EACCES, `present`
discards the presentation feedback, returns success, does not advance
`next_buffer`, does not clear `can_present`, and does not clear
`has_damage` or `cursor_changed` (video.rs lines 987-994: the EACCES
branch returns before any of the success-branch state updates). -/
theorem C4_eacces_silent (env : PresentEnv) (s : ConnectorState)
    (hCrtc : s.hasCrtc = true)
    (hDC : (s.hasDamage || s.cursorChanged) = true)
    (hCan : s.canPresent = true)
    (hAct : s.crtcActive = true)
    (hPlane : s.hasPrimaryPlane = true)
    (hBuf : s.hasBuffers = true)
    (hCtx : env.renderContextOk = true)
    (hRP : env.renderPassOk = true)
    (hCC : env.cursorCopyOk = true)
    (hE : env.firstCommit = .eacces) :
    (present env s).2.1 = .ok ∧
    (present env s).1.pendingFeedback = 0 ∧
    (present env s).1.nextBuffer = s.nextBuffer ∧
    (present env s).1.canPresent = s.canPresent ∧
    (present env s).1.hasDamage = s.hasDamage ∧
    (present env s).1.cursorChanged = s.cursorChanged := by
  obtain ⟨p, hp, f1, f2, f3, f4, f5, -⟩ := damageStep_ok true env s hRP
  obtain ⟨q, hq⟩ := cursorStep_ok env p.1 hCC
  have hguard : ((!s.hasDamage && !s.cursorChanged) || !s.canPresent) = false := by
    rcases Bool.or_eq_true _ _ |>.mp hDC with h | h <;> simp [h, hCan]
  unfold present presentBody
  rw [hE]
  simp only [hCrtc, hguard, hAct, hPlane, hBuf, hCtx, Bool.not_true, Bool.and_false,
    Bool.false_eq_true, if_false, Bool.not_false, Bool.and_true, hp, hq]
  unfold commitStage
  simp [f1, f2, f3, f4, f5, hCan]

/-- C4 witness: the EACCES theorem applied to a concrete connector state
and environment. -/
theorem C4_witness :
    (let s : ConnectorState :=
      { hasDamage := true, cursorChanged := false, canPresent := true,
        hasCrtc := true, crtcId := 1, crtcActive := true,
        hasPrimaryPlane := true, planeId := 2, planeModeW := 800, planeModeH := 600,
        hasBuffers := true, nextBuffer := 3, hasCursorPlane := false,
        cursorPlaneId := 0, cursorEnabled := false, cursorSwapBuffer := false,
        cursorFrontBuffer := 0, cursorSyncFile := none, cursorX := 0, cursorY := 0,
        scanoutCache := [], pendingFeedback := 1, nextFramebuffer := none,
        directScanoutActive := false, isNvidia := false }
     let env : PresentEnv :=
      { renderContextOk := true, hasOutputNode := true,
        directScanoutEnabledDev := false, probe := none, renderFbId := 9,
        renderSyncFile := none, renderPassOk := true, cursorCopyOk := true,
        cursorCopySync := none, cursorFbId := fun _ => 0, cursorWidth := 64,
        cursorHeight := 64, firstCommit := .eacces, retryCommit := .ok }
     (present env s).2.1 = .ok ∧
     (present env s).1.pendingFeedback = 0 ∧
     (present env s).1.nextBuffer = s.nextBuffer ∧
     (present env s).1.canPresent = s.canPresent ∧
     (present env s).1.hasDamage = s.hasDamage ∧
     (present env s).1.cursorChanged = s.cursorChanged) :=
  C4_eacces_silent _ _ rfl rfl rfl rfl rfl rfl rfl rfl rfl rfl

/-! ### Claim C10 -/


theorem damageStep_no_damage (t : Bool) (env : PresentEnv) (s : ConnectorState)
    (h : (s.hasDamage && env.hasOutputNode) = false) :
    damageStep t env s = .ok (s, none) := by
  unfold damageStep
  simp [h]

theorem damageStep_probe_hit (t : Bool) (env : PresentEnv) (s : ConnectorState)
    (d : DirectScanoutDataM)
    (h : (s.hasDamage && env.hasOutputNode) = true)
    (hp : (if t && env.directScanoutEnabledDev then env.probe else none) = some d) :
    damageStep t env s =
      .ok ({ s with
              scanoutCache :=
                if cacheLookup s.scanoutCache d.dmaBufId = none then
                  (d.dmaBufId, some d.fbId) :: s.scanoutCache
                else s.scanoutCache,
              directScanoutActive := true },
           some ⟨d.fbId, some d, d.syncFile⟩) := by
  unfold damageStep
  simp only [h, if_true, hp, Option.isSome_some]

theorem damageStep_render (t : Bool) (env : PresentEnv) (s : ConnectorState)
    (h : (s.hasDamage && env.hasOutputNode) = true)
    (hp : (if t && env.directScanoutEnabledDev then env.probe else none) = none)
    (hr : env.renderPassOk = true) :
    damageStep t env s =
      .ok ({ s with directScanoutActive := false },
           some ⟨env.renderFbId, none, env.renderSyncFile⟩) := by
  unfold damageStep
  simp only [h, if_true, hp, hr, Option.isSome_none]

/-- When every early-return guard of `present` lets the call proceed and
the damage and cursor sections succeed, `presentBody` reduces to the
commit stage on their results. -/
theorem presentBody_run
    (retry : ConnectorState → ConnectorState × PresentOutcome × List (List PropChange))
    (t : Bool) (cr : CommitOutcome) (env : PresentEnv) (s s1 : ConnectorState)
    (newFb : Option PresentFbM) (b : Bool) (chs : List PropChange)
    (hCrtc : s.hasCrtc = true)
    (hDC : (s.hasDamage || s.cursorChanged) = true)
    (hCan : s.canPresent = true)
    (hAct : s.crtcActive = true)
    (hPlane : s.hasPrimaryPlane = true)
    (hBuf : s.hasBuffers = true)
    (hCtxG : (s.hasDamage && !env.renderContextOk) = false)
    (hds : damageStep t env s = .ok (s1, newFb))
    (hcs : cursorStep env s1 = .ok (b, chs)) :
    presentBody retry t cr env s =
      commitStage retry cr s1 newFb (newFbChanges s1 newFb ++ chs) b := by
  have hguard : ((!s.hasDamage && !s.cursorChanged) || !s.canPresent) = false := by
    rcases Bool.or_eq_true _ _ |>.mp hDC with h | h <;> simp [h, hCan]
  unfold presentBody
  simp only [hCrtc, hguard, hAct, hPlane, hBuf, hCtxG, Bool.not_true, Bool.and_false,
    Bool.false_eq_true, if_false, Bool.not_false, Bool.and_true, hds, hcs]

/-- Whether the current present call submits a freshly composited
framebuffer: there is damage, an output node exists, and the direct
scanout probe did not take over (video.rs lines 906-945 set `new_fb`,
lines 1017-1021 advance `next_buffer` only when its
`direct_scanout_data` is `None`). -/
def compositedFrame (env : PresentEnv) (s : ConnectorState) : Bool :=
  s.hasDamage && env.hasOutputNode &&
    (if env.directScanoutEnabledDev then env.probe else none).isNone

/-- C10: after a successful present commit, `next_buffer` advances exactly
when a newly composited framebuffer was submitted; on a direct-scanout
commit or a cursor-only commit it is unchanged, so the next composited
frame selects the same back buffer (`next_buffer` mod 2). -/
theorem C10_next_buffer_advance (env : PresentEnv) (s : ConnectorState)
    (hCrtc : s.hasCrtc = true)
    (hDC : (s.hasDamage || s.cursorChanged) = true)
    (hCan : s.canPresent = true)
    (hAct : s.crtcActive = true)
    (hPlane : s.hasPrimaryPlane = true)
    (hBuf : s.hasBuffers = true)
    (hCtx : env.renderContextOk = true)
    (hRP : env.renderPassOk = true)
    (hCC : env.cursorCopyOk = true)
    (hOk : env.firstCommit = .ok) :
    (present env s).2.1 = .ok ∧
    (present env s).1.nextBuffer =
      (if compositedFrame env s then s.nextBuffer + 1 else s.nextBuffer) ∧
    (compositedFrame env s = false →
      (present env s).1.nextBuffer % 2 = s.nextBuffer % 2) := by
  have hmain :
      (present env s).2.1 = .ok ∧
      (present env s).1.nextBuffer =
        (if compositedFrame env s then s.nextBuffer + 1 else s.nextBuffer) := by
    unfold present
    rw [hOk]
    by_cases hd : (s.hasDamage && env.hasOutputNode) = true
    · cases hdsd : (if env.directScanoutEnabledDev then env.probe else none) with
      | some d =>
        have hds := damageStep_probe_hit true env s d hd (by simpa using hdsd)
        obtain ⟨⟨b, chs⟩, hq⟩ := cursorStep_ok env
          ({ s with
              scanoutCache :=
                if cacheLookup s.scanoutCache d.dmaBufId = none then
                  (d.dmaBufId, some d.fbId) :: s.scanoutCache
                else s.scanoutCache,
              directScanoutActive := true }) hCC
        rw [presentBody_run (presentSecond env) true .ok env s _ _ b chs
          hCrtc hDC hCan hAct hPlane hBuf (by simp [hCtx]) hds hq]
        unfold commitStage compositedFrame
        simp only [Bool.and_eq_true] at hd
        cases b <;> simp [hdsd, hd.1, hd.2]
      | none =>
        have hds := damageStep_render true env s hd (by simpa using hdsd) hRP
        obtain ⟨⟨b, chs⟩, hq⟩ := cursorStep_ok env
          ({ s with directScanoutActive := false }) hCC
        rw [presentBody_run (presentSecond env) true .ok env s _ _ b chs
          hCrtc hDC hCan hAct hPlane hBuf (by simp [hCtx]) hds hq]
        unfold commitStage compositedFrame
        simp only [Bool.and_eq_true] at hd
        cases b <;> simp [hdsd, hd.1, hd.2]
    · have hds := damageStep_no_damage true env s (by simpa using hd)
      obtain ⟨⟨b, chs⟩, hq⟩ := cursorStep_ok env s hCC
      rw [presentBody_run (presentSecond env) true .ok env s _ _ b chs
        hCrtc hDC hCan hAct hPlane hBuf (by simp [hCtx]) hds hq]
      unfold commitStage compositedFrame
      rw [Bool.not_eq_true] at hd
      cases b <;> simp [hd]
  refine ⟨hmain.1, hmain.2, fun hcf => ?_⟩
  rw [hmain.2, hcf]
  simp

/-- C10 witness: a damaged frame with no direct scanout advances
`next_buffer` from 3 to 4. -/
theorem C10_witness :
    (let s : ConnectorState :=
      { hasDamage := true, cursorChanged := false, canPresent := true,
        hasCrtc := true, crtcId := 1, crtcActive := true,
        hasPrimaryPlane := true, planeId := 2, planeModeW := 800, planeModeH := 600,
        hasBuffers := true, nextBuffer := 3, hasCursorPlane := false,
        cursorPlaneId := 0, cursorEnabled := false, cursorSwapBuffer := false,
        cursorFrontBuffer := 0, cursorSyncFile := none, cursorX := 0, cursorY := 0,
        scanoutCache := [], pendingFeedback := 0, nextFramebuffer := none,
        directScanoutActive := false, isNvidia := false }
     let env : PresentEnv :=
      { renderContextOk := true, hasOutputNode := true,
        directScanoutEnabledDev := false, probe := none, renderFbId := 9,
        renderSyncFile := none, renderPassOk := true, cursorCopyOk := true,
        cursorCopySync := none, cursorFbId := fun _ => 0, cursorWidth := 64,
        cursorHeight := 64, firstCommit := .ok, retryCommit := .ok }
     (present env s).2.1 = .ok ∧
     (present env s).1.nextBuffer =
       (if compositedFrame env s then s.nextBuffer + 1 else s.nextBuffer) ∧
     (compositedFrame env s = false →
       (present env s).1.nextBuffer % 2 = s.nextBuffer % 2)) :=
  C10_next_buffer_advance _ _ rfl rfl rfl rfl rfl rfl rfl rfl rfl rfl

/-! ### Claim C5 -/

theorem cacheLookup_cons_self (k : Nat) (v : Option Nat)
    (rest : List (Nat × Option Nat)) :
    cacheLookup ((k, v) :: rest) k = some v := by
  simp [cacheLookup]

theorem cacheClearFb_cons_self (k : Nat) (v : Option Nat)
    (rest : List (Nat × Option Nat)) :
    cacheClearFb ((k, v) :: rest) k = (k, none) :: cacheClearFb rest k := by
  simp [cacheClearFb]

/-- C5 amended: if the page-flip commit fails with an error other than
EACCES and the prepared frame used direct scanout, present is retried
exactly once with direct scanout disabled (two commits are attempted in
total).  If the retry call returns success (which includes a silently
swallowed EACCES), the direct-scanout cache entry for that dmabuf loses
its DRM framebuffer and the call returns success.  If the retry also
fails, the cache entry keeps its DRM framebuffer (contrary to the original
claim, the eviction happens only after a successful retry, video.rs lines
997-1009), the call returns a Commit error, and presentation feedback is
discarded. -/
theorem C5_amended_retry_once (env : PresentEnv) (s : ConnectorState)
    (d : DirectScanoutDataM)
    (hCrtc : s.hasCrtc = true)
    (hDC : (s.hasDamage || s.cursorChanged) = true)
    (hCan : s.canPresent = true)
    (hAct : s.crtcActive = true)
    (hPlane : s.hasPrimaryPlane = true)
    (hBuf : s.hasBuffers = true)
    (hCtx : env.renderContextOk = true)
    (hD : s.hasDamage = true)
    (hN : env.hasOutputNode = true)
    (hDS : env.directScanoutEnabledDev = true)
    (hProbe : env.probe = some d)
    (hRP : env.renderPassOk = true)
    (hCC : env.cursorCopyOk = true)
    (hFirst : env.firstCommit = .otherError)
    (hFresh : cacheLookup s.scanoutCache d.dmaBufId = none) :
    (present env s).2.2.length = 2 ∧
    (env.retryCommit ≠ .otherError →
      (present env s).2.1 = .ok ∧
      cacheLookup (present env s).1.scanoutCache d.dmaBufId = some none) ∧
    (env.retryCommit = .otherError →
      (present env s).2.1 = .commitError ∧
      (present env s).1.pendingFeedback = 0 ∧
      cacheLookup (present env s).1.scanoutCache d.dmaBufId = some (some d.fbId)) := by
  have hd1 : (s.hasDamage && env.hasOutputNode) = true := by simp [hD, hN]
  have hds1 : damageStep true env s =
      .ok ({ s with
              scanoutCache := (d.dmaBufId, some d.fbId) :: s.scanoutCache,
              directScanoutActive := true },
           some ⟨d.fbId, some d, d.syncFile⟩) := by
    rw [damageStep_probe_hit true env s d hd1 (by simp [hDS, hProbe])]
    simp [hFresh]
  obtain ⟨⟨b1, chs1⟩, hq1⟩ := cursorStep_ok env
    ({ s with
        scanoutCache := (d.dmaBufId, some d.fbId) :: s.scanoutCache,
        directScanoutActive := true }) hCC
  have hds2 : damageStep false env
      ({ s with
          scanoutCache := (d.dmaBufId, some d.fbId) :: s.scanoutCache,
          directScanoutActive := true }) =
      .ok ({ s with
              scanoutCache := (d.dmaBufId, some d.fbId) :: s.scanoutCache,
              directScanoutActive := false },
           some ⟨env.renderFbId, none, env.renderSyncFile⟩) := by
    rw [damageStep_render false env
      ({ s with
          scanoutCache := (d.dmaBufId, some d.fbId) :: s.scanoutCache,
          directScanoutActive := true }) hd1 (by simp) hRP]
  obtain ⟨⟨b2, chs2⟩, hq2⟩ := cursorStep_ok env
    ({ s with
        scanoutCache := (d.dmaBufId, some d.fbId) :: s.scanoutCache,
        directScanoutActive := false }) hCC
  have hretry : presentSecond env
      ({ s with
          scanoutCache := (d.dmaBufId, some d.fbId) :: s.scanoutCache,
          directScanoutActive := true }) =
      commitStage (fun s2 => (s2, .commitError, [])) env.retryCommit
        ({ s with
            scanoutCache := (d.dmaBufId, some d.fbId) :: s.scanoutCache,
            directScanoutActive := false })
        (some ⟨env.renderFbId, none, env.renderSyncFile⟩)
        (newFbChanges
          ({ s with
              scanoutCache := (d.dmaBufId, some d.fbId) :: s.scanoutCache,
              directScanoutActive := false })
          (some ⟨env.renderFbId, none, env.renderSyncFile⟩) ++ chs2) b2 := by
    unfold presentSecond
    exact presentBody_run _ false env.retryCommit env _ _ _ b2 chs2
      hCrtc hDC hCan hAct hPlane hBuf (by simp [hCtx]) hds2 hq2
  have houter : present env s =
      commitStage (presentSecond env) .otherError
        ({ s with
            scanoutCache := (d.dmaBufId, some d.fbId) :: s.scanoutCache,
            directScanoutActive := true })
        (some ⟨d.fbId, some d, d.syncFile⟩)
        (newFbChanges
          ({ s with
              scanoutCache := (d.dmaBufId, some d.fbId) :: s.scanoutCache,
              directScanoutActive := true })
          (some ⟨d.fbId, some d, d.syncFile⟩) ++ chs1) b1 := by
    unfold present
    rw [hFirst]
    exact presentBody_run _ true .otherError env s _ _ b1 chs1
      hCrtc hDC hCan hAct hPlane hBuf (by simp [hCtx]) hds1 hq1
  rw [houter]
  cases hrc : env.retryCommit with
  | ok =>
    rw [hrc] at hretry
    unfold commitStage
    rw [hretry]
    unfold commitStage
    cases b2 <;>
      simp [cacheClearFb_cons_self, cacheLookup_cons_self]
  | eacces =>
    rw [hrc] at hretry
    unfold commitStage
    rw [hretry]
    unfold commitStage
    simp [cacheClearFb_cons_self, cacheLookup_cons_self]
  | otherError =>
    rw [hrc] at hretry
    unfold commitStage
    rw [hretry]
    unfold commitStage
    simp [cacheLookup_cons_self]

/-- Concrete direct-scanout candidate used by the C5 counterexample and
witness: dmabuf id 7, imported DRM framebuffer 42, full-screen 800x600. -/
def c5dsd : DirectScanoutDataM :=
  ⟨7, 42, none, 0, 0, 800, 600, 800, 600⟩

/-- Concrete connector state for claim C5. -/
def c5state : ConnectorState :=
  { hasDamage := true, cursorChanged := false, canPresent := true,
    hasCrtc := true, crtcId := 1, crtcActive := true,
    hasPrimaryPlane := true, planeId := 2, planeModeW := 800, planeModeH := 600,
    hasBuffers := true, nextBuffer := 0, hasCursorPlane := false,
    cursorPlaneId := 0, cursorEnabled := false, cursorSwapBuffer := false,
    cursorFrontBuffer := 0, cursorSyncFile := none, cursorX := 0, cursorY := 0,
    scanoutCache := [], pendingFeedback := 1, nextFramebuffer := none,
    directScanoutActive := false, isNvidia := false }

/-- Concrete environment for claim C5 where both the page-flip commit and
the retry fail with an error other than EACCES. -/
def c5envFail : PresentEnv :=
  { renderContextOk := true, hasOutputNode := true,
    directScanoutEnabledDev := true, probe := some c5dsd, renderFbId := 9,
    renderSyncFile := none, renderPassOk := true, cursorCopyOk := true,
    cursorCopySync := none, cursorFbId := fun _ => 0, cursorWidth := 64,
    cursorHeight := 64, firstCommit := .otherError, retryCommit := .otherError }

/-- Concrete environment for claim C5 where the retry succeeds. -/
def c5envRetryOk : PresentEnv :=
  { renderContextOk := true, hasOutputNode := true,
    directScanoutEnabledDev := true, probe := some c5dsd, renderFbId := 9,
    renderSyncFile := none, renderPassOk := true, cursorCopyOk := true,
    cursorCopySync := none, cursorFbId := fun _ => 0, cursorWidth := 64,
    cursorHeight := 64, firstCommit := .otherError, retryCommit := .ok }

/-- C5 counterexample: when the page-flip commit fails with a non-EACCES
error during a direct-scanout frame and the retry without direct scanout
also fails, the call returns a Commit error but the direct-scanout cache
entry for the dmabuf still holds its DRM framebuffer: the claimed eviction
does not happen on this input (the code evicts only after a successful
retry, video.rs lines 997-1009). -/
theorem C5_cex_no_eviction_on_failed_retry :
    (present c5envFail c5state).2.1 = PresentOutcome.commitError ∧
    cacheLookup (present c5envFail c5state).1.scanoutCache 7 = some (some 42) ∧
    (present c5envFail c5state).2.2.length = 2 := by
  refine ⟨rfl, rfl, rfl⟩

/-- C5 witness: the amended theorem applied to the concrete input where
the retry succeeds, so the cache entry loses its DRM framebuffer. -/
theorem C5_witness :
    (c5state.hasCrtc = true ∧
     (c5state.hasDamage || c5state.cursorChanged) = true ∧
     c5state.canPresent = true ∧
     c5state.crtcActive = true ∧
     c5state.hasPrimaryPlane = true ∧
     c5state.hasBuffers = true ∧
     c5envRetryOk.renderContextOk = true ∧
     c5state.hasDamage = true ∧
     c5envRetryOk.hasOutputNode = true ∧
     c5envRetryOk.directScanoutEnabledDev = true ∧
     c5envRetryOk.probe = some c5dsd ∧
     c5envRetryOk.renderPassOk = true ∧
     c5envRetryOk.cursorCopyOk = true ∧
     c5envRetryOk.firstCommit = .otherError ∧
     cacheLookup c5state.scanoutCache c5dsd.dmaBufId = none) ∧
    ((present c5envRetryOk c5state).2.2.length = 2 ∧
     (c5envRetryOk.retryCommit ≠ .otherError →
       (present c5envRetryOk c5state).2.1 = .ok ∧
       cacheLookup (present c5envRetryOk c5state).1.scanoutCache c5dsd.dmaBufId =
         some none) ∧
     (c5envRetryOk.retryCommit = .otherError →
       (present c5envRetryOk c5state).2.1 = .commitError ∧
       (present c5envRetryOk c5state).1.pendingFeedback = 0 ∧
       cacheLookup (present c5envRetryOk c5state).1.scanoutCache c5dsd.dmaBufId =
         some (some c5dsd.fbId))) :=
  ⟨⟨rfl, rfl, rfl, rfl, rfl, rfl, rfl, rfl, rfl, rfl, rfl, rfl, rfl, rfl, rfl⟩,
   C5_amended_retry_once c5envRetryOk c5state c5dsd
     rfl rfl rfl rfl rfl rfl rfl rfl rfl rfl rfl rfl rfl rfl rfl⟩

/-! ### In-fence suppression on NVIDIA (present path) -/

theorem planePropChanges_no_infence (s : ConnectorState) (fb : PresentFbM)
    (hN : s.isNvidia = true) :
    ∀ pc ∈ planePropChanges s fb, pc.prop ≠ PropName.inFenceFd := by
  unfold planePropChanges
  cases fb.directScanoutData <;>
    · intro pc hpc
      simp only [hN, Bool.not_true, Bool.false_eq_true, if_false, List.append_nil,
        List.mem_cons, List.not_mem_nil, or_false] at hpc
      rcases hpc with h | h | h | h | h | h | h <;> subst h <;> simp

theorem cursorStep_no_infence (env : PresentEnv) (s : ConnectorState)
    (b : Bool) (chs : List PropChange) (hN : s.isNvidia = true)
    (h : cursorStep env s = .ok (b, chs)) :
    ∀ pc ∈ chs, pc.prop ≠ PropName.inFenceFd := by
  unfold cursorStep at h
  by_cases h1 : (s.cursorChanged && s.hasCursorPlane) = true
  · rw [if_pos h1] at h
    by_cases h2 : s.cursorEnabled = true
    · rw [if_pos h2] at h
      by_cases h3 : (s.cursorSwapBuffer && !env.cursorCopyOk) = true
      · rw [if_pos h3] at h
        exact absurd h (by simp)
      · rw [if_neg h3] at h
        simp only [hN, Bool.not_true, Bool.false_eq_true, if_false, List.append_nil,
          Except.ok.injEq, Prod.mk.injEq] at h
        intro pc hpc
        rw [← h.2] at hpc
        simp only [List.mem_cons, List.not_mem_nil, or_false] at hpc
        rcases hpc with hh | hh | hh | hh | hh | hh | hh | hh | hh | hh <;>
          subst hh <;> simp
    · rw [if_neg h2] at h
      simp only [Except.ok.injEq, Prod.mk.injEq] at h
      intro pc hpc
      rw [← h.2] at hpc
      simp only [List.mem_cons, List.not_mem_nil, or_false] at hpc
      rcases hpc with hh | hh <;> subst hh <;> simp
  · rw [if_neg h1] at h
    simp only [Except.ok.injEq, Prod.mk.injEq] at h
    intro pc hpc
    rw [← h.2] at hpc
    simp at hpc

theorem damageStep_nvidia (t : Bool) (env : PresentEnv) (s : ConnectorState) :
    (∀ s1 nf, damageStep t env s = .ok (s1, nf) → s1.isNvidia = s.isNvidia) ∧
    (∀ s1, damageStep t env s = .error s1 → s1.isNvidia = s.isNvidia) := by
  unfold damageStep
  by_cases hd : (s.hasDamage && env.hasOutputNode) = true
  · simp only [hd, if_true]
    cases hdsd : (if t && env.directScanoutEnabledDev then env.probe else none) with
    | some d =>
      constructor
      · intro s1 nf h
        simp only [Except.ok.injEq, Prod.mk.injEq] at h
        rw [← h.1]
      · intro s1 h
        simp at h
    | none =>
      by_cases hr : env.renderPassOk = true
      · simp only [hr, if_true]
        constructor
        · intro s1 nf h
          simp only [Except.ok.injEq, Prod.mk.injEq] at h
          rw [← h.1]
        · intro s1 h
          simp at h
      · simp only [Bool.not_eq_true] at hr
        simp only [hr, Bool.false_eq_true, if_false]
        constructor
        · intro s1 nf h
          simp at h
        · intro s1 h
          simp only [Except.error.injEq] at h
          rw [← h]
  · simp only [Bool.not_eq_true] at hd
    simp only [hd, Bool.false_eq_true, if_false]
    constructor
    · intro s1 nf h
      simp only [Except.ok.injEq, Prod.mk.injEq] at h
      rw [← h.1]
    · intro s1 h
      simp at h

theorem commitStage_no_infence
    (retry : ConnectorState → ConnectorState × PresentOutcome × List (List PropChange))
    (cr : CommitOutcome) (s1 : ConnectorState) (newFb : Option PresentFbM)
    (changes : List PropChange) (cursorSwap : Bool)
    (hchanges : ∀ pc ∈ changes, pc.prop ≠ PropName.inFenceFd)
    (hretry : ∀ ch ∈ (retry s1).2.2, ∀ pc ∈ ch, pc.prop ≠ PropName.inFenceFd) :
    ∀ ch ∈ (commitStage retry cr s1 newFb changes cursorSwap).2.2,
      ∀ pc ∈ ch, pc.prop ≠ PropName.inFenceFd := by
  unfold commitStage
  cases cr with
  | eacces =>
    intro ch hch
    have hch2 : ch ∈ [changes] := hch
    simp only [List.mem_cons, List.not_mem_nil, or_false] at hch2
    subst hch2
    exact hchanges
  | ok =>
    intro ch hch
    have hch2 : ch ∈ [changes] := hch
    simp only [List.mem_cons, List.not_mem_nil, or_false] at hch2
    subst hch2
    exact hchanges
  | otherError =>
    cases newFb with
    | none =>
      intro ch hch
      have hch2 : ch ∈ [changes] := hch
      simp only [List.mem_cons, List.not_mem_nil, or_false] at hch2
      subst hch2
      exact hchanges
    | some fb =>
      rcases fb with ⟨fbid, dsdOpt, sync⟩
      cases dsdOpt with
      | none =>
        intro ch hch
        have hch2 : ch ∈ [changes] := hch
        simp only [List.mem_cons, List.not_mem_nil, or_false] at hch2
        subst hch2
        exact hchanges
      | some dsd =>
        rcases hr : retry s1 with ⟨s2, r2, chs2⟩
        have hretry2 : ∀ ch ∈ chs2, ∀ pc ∈ ch, pc.prop ≠ PropName.inFenceFd := by
          rw [hr] at hretry
          exact hretry
        cases r2 <;>
          · intro ch hch
            have hch2 : ch ∈ changes :: chs2 := hch
            rcases List.mem_cons.mp hch2 with h | h
            · subst h
              exact hchanges
            · exact hretry2 ch h

theorem presentBody_run_damage_error
    (retry : ConnectorState → ConnectorState × PresentOutcome × List (List PropChange))
    (t : Bool) (cr : CommitOutcome) (env : PresentEnv) (s s1 : ConnectorState)
    (hCrtc : s.hasCrtc = true)
    (hDC : (s.hasDamage || s.cursorChanged) = true)
    (hCan : s.canPresent = true)
    (hAct : s.crtcActive = true)
    (hPlane : s.hasPrimaryPlane = true)
    (hBuf : s.hasBuffers = true)
    (hCtxG : (s.hasDamage && !env.renderContextOk) = false)
    (hds : damageStep t env s = .error s1) :
    presentBody retry t cr env s = (s1, .prepareError, []) := by
  have hguard : ((!s.hasDamage && !s.cursorChanged) || !s.canPresent) = false := by
    rcases Bool.or_eq_true _ _ |>.mp hDC with h | h <;> simp [h, hCan]
  unfold presentBody
  simp only [hCrtc, hguard, hAct, hPlane, hBuf, hCtxG, Bool.not_true, Bool.and_false,
    Bool.false_eq_true, if_false, Bool.not_false, Bool.and_true, hds]

theorem presentBody_run_cursor_error
    (retry : ConnectorState → ConnectorState × PresentOutcome × List (List PropChange))
    (t : Bool) (cr : CommitOutcome) (env : PresentEnv) (s s1 : ConnectorState)
    (newFb : Option PresentFbM)
    (hCrtc : s.hasCrtc = true)
    (hDC : (s.hasDamage || s.cursorChanged) = true)
    (hCan : s.canPresent = true)
    (hAct : s.crtcActive = true)
    (hPlane : s.hasPrimaryPlane = true)
    (hBuf : s.hasBuffers = true)
    (hCtxG : (s.hasDamage && !env.renderContextOk) = false)
    (hds : damageStep t env s = .ok (s1, newFb))
    (hcs : cursorStep env s1 = .error ()) :
    presentBody retry t cr env s = (s1, .prepareError, []) := by
  have hguard : ((!s.hasDamage && !s.cursorChanged) || !s.canPresent) = false := by
    rcases Bool.or_eq_true _ _ |>.mp hDC with h | h <;> simp [h, hCan]
  unfold presentBody
  simp only [hCrtc, hguard, hAct, hPlane, hBuf, hCtxG, Bool.not_true, Bool.and_false,
    Bool.false_eq_true, if_false, Bool.not_false, Bool.and_true, hds, hcs]

theorem presentBody_no_infence
    (retry : ConnectorState → ConnectorState × PresentOutcome × List (List PropChange))
    (t : Bool) (cr : CommitOutcome) (env : PresentEnv) (s : ConnectorState)
    (hN : s.isNvidia = true)
    (hr : ∀ s2 : ConnectorState, s2.isNvidia = true →
      ∀ ch ∈ (retry s2).2.2, ∀ pc ∈ ch, pc.prop ≠ PropName.inFenceFd) :
    ∀ ch ∈ (presentBody retry t cr env s).2.2,
      ∀ pc ∈ ch, pc.prop ≠ PropName.inFenceFd := by
  by_cases g1 : s.hasCrtc = true
  case neg =>
    rw [Bool.not_eq_true] at g1
    unfold presentBody
    simp [g1]
  by_cases g2 : (s.hasDamage || s.cursorChanged) = true
  case neg =>
    rw [Bool.not_eq_true] at g2
    simp only [Bool.or_eq_false_iff] at g2
    unfold presentBody
    simp [g1, g2.1, g2.2]
  by_cases g3 : s.canPresent = true
  case neg =>
    rw [Bool.not_eq_true] at g3
    unfold presentBody
    simp [g1, g3]
  by_cases g4 : s.crtcActive = true
  case neg =>
    rw [Bool.not_eq_true] at g4
    have hguard : ((!s.hasDamage && !s.cursorChanged) || !s.canPresent) = false := by
      rcases Bool.or_eq_true _ _ |>.mp g2 with h | h <;> simp [h, g3]
    unfold presentBody
    simp [g1, g4, hguard]
  by_cases g5 : s.hasPrimaryPlane = true
  case neg =>
    rw [Bool.not_eq_true] at g5
    have hguard : ((!s.hasDamage && !s.cursorChanged) || !s.canPresent) = false := by
      rcases Bool.or_eq_true _ _ |>.mp g2 with h | h <;> simp [h, g3]
    unfold presentBody
    simp [g1, g4, g5, hguard]
  by_cases g6 : s.hasBuffers = true
  case neg =>
    rw [Bool.not_eq_true] at g6
    have hguard : ((!s.hasDamage && !s.cursorChanged) || !s.canPresent) = false := by
      rcases Bool.or_eq_true _ _ |>.mp g2 with h | h <;> simp [h, g3]
    unfold presentBody
    simp [g1, g4, g5, g6, hguard]
  by_cases g7 : (s.hasDamage && !env.renderContextOk) = true
  case pos =>
    have hguard : ((!s.hasDamage && !s.cursorChanged) || !s.canPresent) = false := by
      rcases Bool.or_eq_true _ _ |>.mp g2 with h | h <;> simp [h, g3]
    unfold presentBody
    simp [g1, g4, g5, g6, g7, hguard]
  rw [Bool.not_eq_true] at g7
  rcases hds : damageStep t env s with s1 | ⟨s1, newFb⟩
  · rw [presentBody_run_damage_error retry t cr env s s1 g1 g2 g3 g4 g5 g6 g7 hds]
    simp
  · have hN1 : s1.isNvidia = true := by
      rw [(damageStep_nvidia t env s).1 s1 newFb hds]
      exact hN
    rcases hcs : cursorStep env s1 with u | ⟨b, chs⟩
    · cases u
      rw [presentBody_run_cursor_error retry t cr env s s1 newFb g1 g2 g3 g4 g5 g6 g7 hds hcs]
      simp
    · rw [presentBody_run retry t cr env s s1 newFb b chs g1 g2 g3 g4 g5 g6 g7 hds hcs]
      have hcursor := cursorStep_no_infence env s1 b chs hN1 hcs
      have hdamage : ∀ pc ∈ newFbChanges s1 newFb, pc.prop ≠ PropName.inFenceFd := by
        cases newFb with
        | none => simp [newFbChanges]
        | some fb =>
          unfold newFbChanges
          exact planePropChanges_no_infence s1 fb hN1
      have hall : ∀ pc ∈ newFbChanges s1 newFb ++ chs, pc.prop ≠ PropName.inFenceFd := by
        intro pc hpc
        rcases List.mem_append.mp hpc with h | h
        · exact hdamage pc h
        · exact hcursor pc h
      exact commitStage_no_infence retry cr s1 newFb _ b hall (hr s1 hN1)

/-- On an NVIDIA device, no commit built by `present` (outer call or
retry) contains an IN_FENCE_FD change. -/
theorem present_no_infence (env : PresentEnv) (s : ConnectorState)
    (hN : s.isNvidia = true) :
    ∀ ch ∈ (present env s).2.2, ∀ pc ∈ ch, pc.prop ≠ PropName.inFenceFd := by
  unfold present
  refine presentBody_no_infence _ true env.firstCommit env s hN ?_
  intro s2 hN2
  unfold presentSecond
  refine presentBody_no_infence _ false env.retryCommit env s2 hN2 ?_
  intro s3 _
  simp

/-! ### Device inventory and configuration solver
(video.rs, MetalDrmDevice / MetalBackend::init_drm_device and helpers) -/

/-- `drm_mode_modeinfo` restricted to the fields compared by `modes_equal`
(video.rs lines 2888-2902) plus the display sizes used by the solver. -/
structure ModeInfoM where
  clock : Nat
  hdisplay : Nat
  hsyncStart : Nat
  hsyncEnd : Nat
  htotal : Nat
  hskew : Nat
  vdisplay : Nat
  vsyncStart : Nat
  vsyncEnd : Nat
  vtotal : Nat
  vscan : Nat
  vrefresh : Nat
  flags : Nat
deriving DecidableEq

/-- `modes_equal` (video.rs lines 2888-2902): field-wise comparison. -/
def modesEqual (a b : ModeInfoM) : Bool :=
  a.clock == b.clock && a.hdisplay == b.hdisplay && a.hsyncStart == b.hsyncStart &&
  a.hsyncEnd == b.hsyncEnd && a.htotal == b.htotal && a.hskew == b.hskew &&
  a.vdisplay == b.vdisplay && a.vsyncStart == b.vsyncStart && a.vsyncEnd == b.vsyncEnd &&
  a.vtotal == b.vtotal && a.vscan == b.vscan && a.vrefresh == b.vrefresh &&
  a.flags == b.flags

/-- `PlaneType` (video.rs lines 1285-1290). -/
inductive PlaneTypeM
  | overlay
  | primary
  | cursor
deriving DecidableEq

/-- `MetalPlane` (video.rs lines 1298-1324) restricted to the solver state:
supported formats map drm format codes to modifier lists; `crtcIdVal` is
the cached `CRTC_ID` property value (0 meaning none). -/
structure MPlane where
  id : Nat
  ty : PlaneTypeM
  formats : List (Nat × List Nat)
  lease : Option Nat
  assigned : Bool
  crtcIdVal : Nat
  modeW : Nat
  modeH : Nat
deriving DecidableEq

/-- `MetalCrtc` (video.rs lines 1255-1271): `possiblePlanes` lists the ids
of the planes whose compatibility mask includes this CRTC, `connector` the
id of the driving connector, `modeIdVal` the cached `MODE_ID` blob (0
meaning none). -/
structure MCrtc where
  id : Nat
  idx : Nat
  lease : Option Nat
  possiblePlanes : List Nat
  connector : Option Nat
  active : Bool
  modeIdVal : Nat
deriving DecidableEq

/-- `MetalConnector` (video.rs lines 398-449) restricted to the solver and
lease state: `crtcIdVal` is the cached `CRTC_ID` property of the display
data, `ddCrtcs` the candidate CRTC ids of the display data, `crtc` /
`primaryPlane` / `cursorPlane` the assignment cells. -/
structure MConnector where
  id : Nat
  enabled : Bool
  connected : Bool
  nonDesktopEffective : Bool
  crtcIdVal : Nat
  mode : Option ModeInfoM
  ddCrtcs : List Nat
  crtc : Option Nat
  primaryPlane : Option Nat
  cursorPlane : Option Nat
  lease : Option Nat
  frontState : FrontState
deriving DecidableEq

/-- `MetalLeaseData` (video.rs lines 325-332) restricted to the object ids
and the revoked flag. -/
structure MLeaseData where
  connectors : List Nat
  crtcs : List Nat
  planes : List Nat
  revoked : Bool
deriving DecidableEq

/-- `MetalDrmDevice` plus `MetalDrmDeviceData` (video.rs lines 76-101 and
284-290) restricted to the state the solver and lease broker touch.
`blobs` models the kernel blob store consulted by `getblob`. -/
structure MDevice where
  connectors : List MConnector
  crtcs : List MCrtc
  planes : List MPlane
  blobs : List (Nat × ModeInfoM)
  leases : List (Nat × MLeaseData)
  leasesToBreak : List (Nat × MLeaseData)
  nextLeaseId : Nat
  isNvidia : Bool
deriving DecidableEq

/-- `Preserve` (video.rs lines 1703-1708). -/
structure MPreserve where
  connectors : List Nat
  crtcs : List Nat
  planes : List Nat
deriving DecidableEq

def findConnector (dev : MDevice) (i : Nat) : Option MConnector :=
  dev.connectors.find? (fun c => c.id == i)

def findCrtc (dev : MDevice) (i : Nat) : Option MCrtc :=
  dev.crtcs.find? (fun c => c.id == i)

def findPlane (dev : MDevice) (i : Nat) : Option MPlane :=
  dev.planes.find? (fun p => p.id == i)

def lookupBlob (dev : MDevice) (i : Nat) : Option ModeInfoM :=
  (dev.blobs.find? (fun b => b.1 == i)).map (fun b => b.2)

def lookupLease (leases : List (Nat × MLeaseData)) (i : Nat) : Option MLeaseData :=
  (leases.find? (fun l => l.1 == i)).map (fun l => l.2)

def updateConnector (dev : MDevice) (i : Nat) (f : MConnector → MConnector) : MDevice :=
  { dev with connectors := dev.connectors.map (fun c => if c.id = i then f c else c) }

def updateCrtc (dev : MDevice) (i : Nat) (f : MCrtc → MCrtc) : MDevice :=
  { dev with crtcs := dev.crtcs.map (fun c => if c.id = i then f c else c) }

def updatePlane (dev : MDevice) (i : Nat) (f : MPlane → MPlane) : MDevice :=
  { dev with planes := dev.planes.map (fun p => if p.id = i then f p else p) }

/-- `should_ignore` (video.rs lines 2904-2908). -/
def shouldIgnore (c : MConnector) : Bool :=
  !c.enabled || !c.connected || c.nonDesktopEffective

/-- `DRM_MODE_ATOMIC_ALLOW_MODESET`. -/
def allowModeset : Nat := 1024

/-- A single atomic-commit attempt: its accumulated property changes and
the commit flags. -/
structure CommitRec where
  changes : List PropChange
  flags : Nat
deriving DecidableEq

/-- Kernel and GPU oracle for the solver pipeline: whether each commit
succeeds, whether a pending lease revocation succeeds, the blob id that
`create_blob` returns per connector, and the scanout-buffer allocations
of `assign_connector_planes`. -/
structure SolverEnv where
  hasRenderCtx : Bool
  deactCommitOk : Bool
  finalCommitOk : Bool
  revokeOk : Nat → Bool
  blobIdFor : Nat → Option Nat
  scanoutBuffersOk : Nat → Bool
  cursorBuffersOk : Nat → Bool
  primaryFbId : Nat → Nat

/-- `MetalLeaseData::try_revoke` (video.rs lines 334-354): an already
revoked lease reports success; otherwise the kernel revocation oracle is
consulted and on success the lease marker of every participating object is
cleared. -/
def clearLeaseObjects (dev : MDevice) (d : MLeaseData) : MDevice :=
  { dev with
    connectors := dev.connectors.map
      (fun c => if d.connectors.contains c.id then { c with lease := none } else c),
    crtcs := dev.crtcs.map
      (fun c => if d.crtcs.contains c.id then { c with lease := none } else c),
    planes := dev.planes.map
      (fun p => if d.planes.contains p.id then { p with lease := none } else p) }

def tryRevoke (revoke : Nat → Bool) (dev : MDevice) (lid : Nat) (d : MLeaseData) :
    Bool × MDevice × MLeaseData :=
  if d.revoked then (true, dev, d)
  else if revoke lid then (true, clearLeaseObjects dev d, { d with revoked := true })
  else (false, dev, d)

/-- `MetalBackend::break_leases` (video.rs lines 2385-2390): retain in
`leases_to_break` exactly the leases whose revocation still fails. -/
def breakLeasesGo (revoke : Nat → Bool) (pending : List (Nat × MLeaseData))
    (dev : MDevice) (kept : List (Nat × MLeaseData)) : MDevice × List (Nat × MLeaseData) :=
  match pending with
  | [] => (dev, kept)
  | (lid, d) :: rest =>
    match tryRevoke revoke dev lid d with
    | (true, dev2, _) => breakLeasesGo revoke rest dev2 kept
    | (false, dev2, d2) => breakLeasesGo revoke rest dev2 (kept ++ [(lid, d2)])

def breakLeases (revoke : Nat → Bool) (dev : MDevice) : MDevice :=
  match breakLeasesGo revoke dev.leasesToBreak dev [] with
  | (dev2, kept) => { dev2 with leasesToBreak := kept }

/-- `MetalBackend::reset_planes` (video.rs lines 2191-2204): every plane
outside the preserve set is unrouted (`crtc_id = 0`, `fb_id = 0`) and its
`in_fence_fd` written to -1, with no check of `lease` or `is_nvidia`. -/
def resetPlanesGo (preserve : MPreserve) (ps : List MPlane) (dev : MDevice) :
    MDevice × List PropChange :=
  match ps with
  | [] => (dev, [])
  | p :: rest =>
    if preserve.planes.contains p.id then resetPlanesGo preserve rest dev
    else
      let dev2 := updatePlane dev p.id (fun q => { q with crtcIdVal := 0, assigned := false })
      let r := resetPlanesGo preserve rest dev2
      (r.1, [⟨p.id, .crtcId, 0⟩, ⟨p.id, .fbId, 0⟩, ⟨p.id, .inFenceFd, -1⟩] ++ r.2)

def resetPlanes (dev : MDevice) (preserve : MPreserve) : MDevice × List PropChange :=
  resetPlanesGo preserve dev.planes dev

/-- `MetalBackend::reset_connectors_and_crtcs` (video.rs lines 2206-2241). -/
def resetConnectorsGo (preserve : MPreserve) (cs : List MConnector) (dev : MDevice) :
    MDevice × List PropChange :=
  match cs with
  | [] => (dev, [])
  | c :: rest =>
    if preserve.connectors.contains c.id then resetConnectorsGo preserve rest dev
    else
      let dev2 := updateConnector dev c.id (fun q =>
        { q with primaryPlane := none, cursorPlane := none, crtc := none, crtcIdVal := 0 })
      let r := resetConnectorsGo preserve rest dev2
      (r.1, [⟨c.id, .crtcId, 0⟩] ++ r.2)

def resetCrtcsGo (preserve : MPreserve) (cs : List MCrtc) (dev : MDevice) :
    MDevice × List PropChange :=
  match cs with
  | [] => (dev, [])
  | c :: rest =>
    if preserve.crtcs.contains c.id then resetCrtcsGo preserve rest dev
    else
      let dev2 := updateCrtc dev c.id (fun q =>
        { q with connector := none, active := false, modeIdVal := 0 })
      let r := resetCrtcsGo preserve rest dev2
      (r.1, [⟨c.id, .active, 0⟩, ⟨c.id, .modeId, 0⟩, ⟨c.id, .outFencePtr, 0⟩] ++ r.2)

def resetConnectorsAndCrtcs (dev : MDevice) (preserve : MPreserve) :
    MDevice × List PropChange :=
  let r1 := resetConnectorsGo preserve dev.connectors dev
  let r2 := resetCrtcsGo preserve r1.1.crtcs r1.1
  (r2.1, r1.2 ++ r2.2)

/-- The drm fourcc code of XRGB8888. -/
def xrgb8888 : Nat := 0x34325258

/-- The drm fourcc code of ARGB8888. -/
def argb8888 : Nat := 0x34325241

/-- The primary-plane search of the no-op feasibility walk (video.rs lines
2489-2495): the first primary plane of the CRTC not yet taken by an
earlier connector, tracked in `used`; note that neither `assigned` nor
`lease` is consulted here. -/
def findFreshPrimary (dev : MDevice) (pids used : List Nat) : Option Nat :=
  match pids with
  | [] => none
  | pid :: rest =>
    match findPlane dev pid with
    | none => findFreshPrimary dev rest used
    | some p =>
      if p.ty = .primary ∧ ¬ used.contains pid then some pid
      else findFreshPrimary dev rest used

/-- The per-connector walk of `can_use_current_drm_mode` (video.rs lines
2445-2500).  Returns `none` where the source would panic (a cached CRTC id
that does not exist), otherwise the success flag, the device after the
`connector.crtc` / `crtc.connector` cell updates, and the used-CRTC set.
On the first failed check the walk stops, as the source returns false. -/
def canUseWalkGo (dev : MDevice) (cs : List MConnector) (usedCrtcs usedPlanes : List Nat) :
    Option (Bool × MDevice × List Nat) :=
  match cs with
  | [] => some (true, dev, usedCrtcs)
  | c :: rest =>
    if shouldIgnore c then
      if c.crtcIdVal ≠ 0 then some (false, dev, usedCrtcs)
      else canUseWalkGo dev rest usedCrtcs usedPlanes
    else
      if c.crtcIdVal = 0 then some (false, dev, usedCrtcs)
      else
        let used2 := c.crtcIdVal :: usedCrtcs
        match findCrtc dev c.crtcIdVal with
        | none => none
        | some crtc =>
          let dev2 := updateConnector
            (updateCrtc dev c.crtcIdVal (fun q => { q with connector := some c.id }))
            c.id (fun q => { q with crtc := some c.crtcIdVal })
          if !crtc.active then some (false, dev2, used2)
          else
            match c.mode with
            | none => some (false, dev2, used2)
            | some mode =>
              match lookupBlob dev crtc.modeIdVal with
              | none => some (false, dev2, used2)
              | some current =>
                if !modesEqual mode current then some (false, dev2, used2)
                else
                  match findFreshPrimary dev crtc.possiblePlanes usedPlanes with
                  | none => some (false, dev2, used2)
                  | some pid => canUseWalkGo dev2 rest used2 (pid :: usedPlanes)

/-- The deactivation stage of `can_use_current_drm_mode` (video.rs lines
2502-2512): every CRTC gets an `OUT_FENCE_PTR = 0` change; a CRTC that is
active but not used additionally gets `ACTIVE = 0`, which requires
ALLOW_MODESET. -/
def deactivateCrtcsGo (used : List Nat) (crs : List MCrtc) (dev : MDevice) :
    MDevice × List PropChange × Nat :=
  match crs with
  | [] => (dev, [], 0)
  | cr :: rest =>
    let deact := !used.contains cr.id && cr.active
    let dev2 := if deact then updateCrtc dev cr.id (fun q => { q with active := false }) else dev
    let here := (if deact then [⟨cr.id, PropName.active, 0⟩] else []) ++
      [⟨cr.id, .outFencePtr, 0⟩]
    let flagsHere := if deact then allowModeset else 0
    let r := deactivateCrtcsGo used rest dev2
    (r.1, here ++ r.2.1, flagsHere ||| r.2.2)

/-- `MetalBackend::can_use_current_drm_mode` (video.rs lines 2441-2519):
the walk over all connectors followed by the deactivation commit.  The
second result is the device afterwards, the third the commit attempted by
this function (none when the walk already failed). -/
def canUseCurrentDrmMode (env : SolverEnv) (dev : MDevice) :
    Option (Bool × MDevice × List CommitRec) :=
  match canUseWalkGo dev dev.connectors [] [] with
  | none => none
  | some (false, dev2, _) => some (false, dev2, [])
  | some (true, dev2, used) =>
    match deactivateCrtcsGo used dev2.crtcs dev2 with
    | (dev3, chs, flags) => some (env.deactCommitOk, dev3, [⟨chs, flags⟩])

/-- The per-connector validation of `validate_preserve` (video.rs lines
2251-2300). -/
def validateConnector (dev : MDevice) (c : MConnector) : Bool :=
  match c.crtc with
  | none => true
  | some crtcId =>
    if c.crtcIdVal ≠ crtcId then false
    else
      match findCrtc dev crtcId with
      | none => false
      | some crtc =>
        (match c.mode with
         | some mode =>
           crtc.modeIdVal ≠ 0 &&
           (match lookupBlob dev crtc.modeIdVal with
            | some current => modesEqual mode current
            | none => false)
         | none => true) &&
        crtc.active &&
        (match c.primaryPlane with
         | some pid =>
           match findPlane dev pid with
           | some p => p.crtcIdVal == crtcId
           | none => false
         | none => true) &&
        (match c.cursorPlane with
         | some pid =>
           match findPlane dev pid with
           | some p => p.crtcIdVal == 0 || p.crtcIdVal == crtcId
           | none => false
         | none => true)

/-- `MetalBackend::validate_preserve` (video.rs lines 2243-2318): failing
connectors are dropped from the preserve set, then the primary/cursor
planes and CRTCs of the surviving connectors are added to it. -/
def validatePreserve (dev : MDevice) (preserve : MPreserve) : MPreserve :=
  let kept := preserve.connectors.filter (fun cid =>
    match findConnector dev cid with
    | none => false
    | some c => validateConnector dev c)
  let planes := dev.connectors.foldl (fun acc c =>
    if kept.contains c.id then
      acc ++ (match c.primaryPlane with | some p => [p] | none => []) ++
        (match c.cursorPlane with | some p => [p] | none => [])
    else acc) preserve.planes
  let crtcs := dev.connectors.foldl (fun acc c =>
    if kept.contains c.id then
      acc ++ (match c.crtc with | some x => [x] | none => [])
    else acc) preserve.crtcs
  ⟨kept, crtcs, planes⟩

/-- The free-CRTC search of `assign_connector_crtc` (video.rs lines
2682-2689): the first candidate CRTC with no driving connector and no
lease. -/
def findFreeCrtc (dev : MDevice) (cands : List Nat) : Option MCrtc :=
  match cands with
  | [] => none
  | x :: rest =>
    match findCrtc dev x with
    | some cr =>
      if cr.connector = none ∧ cr.lease = none then some cr
      else findFreeCrtc dev rest
    | none => findFreeCrtc dev rest

/-- `MetalBackend::assign_connector_crtc` (video.rs lines 2673-2709).
`none` models the error return (no CRTC, no mode, or blob creation
failure), in which case nothing was changed. -/
def assignConnectorCrtc (env : SolverEnv) (dev : MDevice) (cid : Nat) :
    Option (MDevice × List PropChange) :=
  match findConnector dev cid with
  | none => none
  | some c =>
    if shouldIgnore c then some (dev, [])
    else
      match findFreeCrtc dev c.ddCrtcs with
      | none => none
      | some crtc =>
        match c.mode with
        | none => none
        | some _ =>
          match env.blobIdFor cid with
          | none => none
          | some blobId =>
            let chs := [⟨cid, PropName.crtcId, (crtc.id : Int)⟩,
                        ⟨crtc.id, .active, 1⟩,
                        ⟨crtc.id, .modeId, (blobId : Int)⟩]
            let dev2 := updateConnector dev cid (fun q =>
              { q with crtc := some crtc.id, crtcIdVal := crtc.id })
            let dev3 := updateCrtc dev2 crtc.id (fun q =>
              { q with connector := some cid, active := true, modeIdVal := blobId })
            some (dev3, chs)

/-- The assignment loop of the modeset branch (video.rs lines 2409-2415):
non-preserved connectors are assigned CRTCs in order; failures are logged
and skipped. -/
def assignCrtcsGo (env : SolverEnv) (ids : List Nat) (preserve : MPreserve) (dev : MDevice) :
    MDevice × List PropChange :=
  match ids with
  | [] => (dev, [])
  | cid :: rest =>
    if preserve.connectors.contains cid then assignCrtcsGo env rest preserve dev
    else
      match assignConnectorCrtc env dev cid with
      | some (dev2, chs) =>
        let r := assignCrtcsGo env rest preserve dev2
        (r.1, chs ++ r.2)
      | none => assignCrtcsGo env rest preserve dev

/-- The free primary-plane search of `assign_connector_planes` (video.rs
lines 2730-2740): primary type, unassigned, unleased, supporting
XRGB8888. -/
def findFreePrimaryPlane (dev : MDevice) (pids : List Nat) : Option MPlane :=
  match pids with
  | [] => none
  | x :: rest =>
    match findPlane dev x with
    | some p =>
      if p.ty = .primary ∧ p.assigned = false ∧ p.lease = none ∧
          (p.formats.any (fun f => f.1 == xrgb8888)) then some p
      else findFreePrimaryPlane dev rest
    | none => findFreePrimaryPlane dev rest

/-- The cursor-plane search of `assign_connector_planes` (video.rs lines
2750-2764): cursor type, unassigned, unleased, supporting ARGB8888. -/
def findFreeCursorPlane (dev : MDevice) (pids : List Nat) : Option MPlane :=
  match pids with
  | [] => none
  | x :: rest =>
    match findPlane dev x with
    | some p =>
      if p.ty = .cursor ∧ p.assigned = false ∧ p.lease = none ∧
          (p.formats.any (fun f => f.1 == argb8888)) then some p
      else findFreeCursorPlane dev rest
    | none => findFreeCursorPlane dev rest

/-- `MetalBackend::assign_connector_planes` (video.rs lines 2711-2825).
`none` models the error return (no primary plane or failed primary buffer
allocation); a failed cursor-buffer allocation merely drops the cursor
plane.  Buffer allocation is the oracle `scanoutBuffersOk` /
`cursorBuffersOk` and the first primary framebuffer id is
`primaryFbId`. -/
def assignConnectorPlanes (env : SolverEnv) (dev : MDevice) (cid : Nat) :
    Option (MDevice × List PropChange) :=
  match findConnector dev cid with
  | none => none
  | some c =>
    match c.crtc with
    | none => some (dev, [])
    | some crtcId =>
      match findCrtc dev crtcId with
      | none => none
      | some crtc =>
        match c.mode with
        | none => some (dev, [])
        | some mode =>
          match findFreePrimaryPlane dev crtc.possiblePlanes with
          | none => none
          | some pp =>
            if !env.scanoutBuffersOk cid then none
            else
              let cursorOpt :=
                match findFreeCursorPlane dev crtc.possiblePlanes with
                | some cp => if env.cursorBuffersOk cid then some cp else none
                | none => none
              let chs := [⟨pp.id, PropName.fbId, (env.primaryFbId cid : Int)⟩,
                          ⟨pp.id, .crtcId, (crtcId : Int)⟩,
                          ⟨pp.id, .crtcX, 0⟩,
                          ⟨pp.id, .crtcY, 0⟩,
                          ⟨pp.id, .crtcW, (mode.hdisplay : Int)⟩,
                          ⟨pp.id, .crtcH, (mode.vdisplay : Int)⟩,
                          ⟨pp.id, .srcX, 0⟩,
                          ⟨pp.id, .srcY, 0⟩,
                          ⟨pp.id, .srcW, (mode.hdisplay : Int) * 65536⟩,
                          ⟨pp.id, .srcH, (mode.vdisplay : Int) * 65536⟩]
              let dev2 := updatePlane dev pp.id (fun q =>
                { q with assigned := true, modeW := mode.hdisplay, modeH := mode.vdisplay,
                         crtcIdVal := crtcId })
              let dev3 := updateConnector dev2 cid (fun q =>
                { q with primaryPlane := some pp.id,
                         cursorPlane := cursorOpt.map (fun cp => cp.id) })
              let dev4 :=
                match cursorOpt with
                | some cp => updatePlane dev3 cp.id (fun q => { q with assigned := true })
                | none => dev3
              some (dev4, chs)

/-- The plane-assignment loop of `init_drm_device` (video.rs lines
2419-2427). -/
def assignPlanesGo (env : SolverEnv) (ids : List Nat) (preserve : MPreserve) (dev : MDevice) :
    MDevice × List PropChange :=
  match ids with
  | [] => (dev, [])
  | cid :: rest =>
    if preserve.connectors.contains cid then assignPlanesGo env rest preserve dev
    else
      match assignConnectorPlanes env dev cid with
      | some (dev2, chs) =>
        let r := assignPlanesGo env rest preserve dev2
        (r.1, chs ++ r.2)
      | none => assignPlanesGo env rest preserve dev

/-- `MetalBackend::init_drm_device` (video.rs lines 2392-2439): break
pending leases, bail out silently without a render context, validate the
preserve set, test no-op feasibility (with its own deactivation commit),
otherwise reset connectors, CRTCs and assign CRTCs under ALLOW_MODESET,
then always reset non-preserved planes at line 2417, assign planes for
non-preserved connectors, and issue the final commit.  The result is the
device state, and the list of all commits attempted. -/
def initDrmDevice (env : SolverEnv) (dev : MDevice) (preserve : MPreserve) :
    Option (Except Unit MDevice × List CommitRec) :=
  let devB := breakLeases env.revokeOk dev
  if !env.hasRenderCtx then some (.ok devB, [])
  else
    let pres := validatePreserve devB preserve
    match canUseCurrentDrmMode env devB with
    | none => none
    | some (canUse, dev1, cuCommits) =>
      let step :=
        if canUse then (dev1, ([] : List PropChange), 0)
        else
          let r1 := resetConnectorsAndCrtcs dev1 pres
          let r2 := assignCrtcsGo env (r1.1.connectors.map (fun c => c.id)) pres r1.1
          (r2.1, r1.2 ++ r2.2, allowModeset)
      match step with
      | (dev2, chs0, flags) =>
        let r3 := resetPlanes dev2 pres
        let r4 := assignPlanesGo env (r3.1.connectors.map (fun c => c.id)) pres r3.1
        let commits := cuCommits ++ [⟨chs0 ++ r3.2 ++ r4.2, flags⟩]
        some (if env.finalCommitOk then .ok r4.1 else .error (), commits)

/-- The change lists of every commit attempted by `init_drm_device`. -/
def initChanges (r : Option (Except Unit MDevice × List CommitRec)) :
    Option (List (List PropChange)) :=
  r.map (fun x => x.2.map (fun cm => cm.changes))

/-! ### Lease broker (video.rs, MetalDrmDevice::create_lease) -/

/-- Kernel oracle for `create_lease`: whether a pending revocation
succeeds, whether the lease ioctl succeeds, and the lessee fd it yields. -/
structure LeaseEnv where
  revokeOk : Nat → Bool
  leaseIoctlOk : Bool
  leaseFd : Nat

/-- `MetalLease` (video.rs lines 356-360) as handed to the lessee. -/
structure MLeaseHandle where
  id : Nat
  fd : Nat
deriving DecidableEq

def removePending (l : List (Nat × MLeaseData)) (lid : Nat) : List (Nat × MLeaseData) :=
  l.filter (fun e => !(e.1 == lid))

/-- The stale-lease revocation step of `create_lease` (video.rs lines
196-207): if the connector carries a lease id, look it up in
`leases_to_break`; a successful `try_revoke` removes the entry (and clears
the lease markers of its objects), otherwise nothing changes. -/
def revokeStale (revoke : Nat → Bool) (dev : MDevice) (c : MConnector) : MDevice :=
  match c.lease with
  | none => dev
  | some lid =>
    match lookupLease dev.leasesToBreak lid with
    | none => dev
    | some d =>
      match tryRevoke revoke dev lid d with
      | (true, dev2, _) => { dev2 with leasesToBreak := removePending dev2.leasesToBreak lid }
      | (false, dev2, _) => dev2

/-- The CRTC search of `create_lease` (video.rs lines 213-219): the first
candidate CRTC with no driving connector, no lease, and not selected for
an earlier requested connector. -/
def leaseFindCrtc (dev : MDevice) (cands sel : List Nat) : Option MCrtc :=
  match cands with
  | [] => none
  | x :: rest =>
    match findCrtc dev x with
    | some cr =>
      if cr.connector = none ∧ cr.lease = none ∧ ¬ sel.contains cr.id then some cr
      else leaseFindCrtc dev rest sel
    | none => leaseFindCrtc dev rest sel

/-- The primary-plane search of `create_lease` (video.rs lines 220-229):
unassigned, unleased, not selected before, of primary type. -/
def leaseFindPlane (dev : MDevice) (pids sel : List Nat) : Option MPlane :=
  match pids with
  | [] => none
  | x :: rest =>
    match findPlane dev x with
    | some p =>
      if p.assigned = false ∧ p.lease = none ∧ ¬ sel.contains p.id ∧ p.ty = .primary then
        some p
      else leaseFindPlane dev rest sel
    | none => leaseFindPlane dev rest sel

/-- The selection loop of `create_lease` (video.rs lines 172-236): resolve
each requested connector, require state Connected non-desktop, revoke a
stale lease, require no live lease, and pick a fresh CRTC and primary
plane.  The device is returned even on failure because a successful stale
revocation persists. -/
def leaseSelectLoop (env : LeaseEnv) (dev : MDevice) (ids selC selCr selP : List Nat) :
    MDevice × Option (List Nat × List Nat × List Nat) :=
  match ids with
  | [] => (dev, some (selC, selCr, selP))
  | i :: rest =>
    match findConnector dev i with
    | none => (dev, none)
    | some c =>
      match c.frontState with
      | .connected true =>
        let dev2 := revokeStale env.revokeOk dev c
        match findConnector dev2 i with
        | none => (dev2, none)
        | some c2 =>
          match c2.lease with
          | some _ => (dev2, none)
          | none =>
            match leaseFindCrtc dev2 c2.ddCrtcs selCr with
            | none => (dev2, none)
            | some crtc =>
              match leaseFindPlane dev2 crtc.possiblePlanes selP with
              | none => (dev2, none)
              | some p =>
                leaseSelectLoop env dev2 rest (selC ++ [i]) (selCr ++ [crtc.id])
                  (selP ++ [p.id])
      | _ => (dev, none)

/-- The per-connector stamping of `create_lease` (video.rs lines 245-248):
set the lease id, then send the Unavailable event through the front-end
state machine; the event is recorded when it is delivered. -/
def stampConnector (dev : MDevice) (lid cid : Nat) : MDevice × List (Nat × CEvent) :=
  match findConnector dev cid with
  | none => (dev, [])
  | some c =>
    let r := sendEvent c.frontState CEvent.unavailableEv
    (updateConnector dev cid (fun q => { q with lease := some lid, frontState := r.state }),
     if r.delivered then [(cid, CEvent.unavailableEv)] else [])

def stampConnectorsGo (dev : MDevice) (lid : Nat) (cids : List Nat)
    (evs : List (Nat × CEvent)) : MDevice × List (Nat × CEvent) :=
  match cids with
  | [] => (dev, evs)
  | cid :: rest =>
    match stampConnector dev lid cid with
    | (dev2, evs2) => stampConnectorsGo dev2 lid rest (evs ++ evs2)

def stampCrtcsGo (lid : Nat) (xs : List Nat) (dev : MDevice) : MDevice :=
  match xs with
  | [] => dev
  | x :: rest => stampCrtcsGo lid rest (updateCrtc dev x (fun q => { q with lease := some lid }))

def stampPlanesGo (lid : Nat) (xs : List Nat) (dev : MDevice) : MDevice :=
  match xs with
  | [] => dev
  | x :: rest => stampPlanesGo lid rest (updatePlane dev x (fun q => { q with lease := some lid }))

/-- `MetalDrmDevice::create_lease` (video.rs lines 159-271): run the
selection loop, invoke the kernel lease ioctl, and on success draw a fresh
lease id, stamp every participating object, emit Unavailable events,
register the lease data, and hand out the handle with the lessee fd.  On
any failure nothing is registered and no fresh id is stamped. -/
def createLease (env : LeaseEnv) (dev : MDevice) (ids : List Nat) :
    MDevice × List (Nat × CEvent) × Option MLeaseHandle :=
  match leaseSelectLoop env dev ids [] [] [] with
  | (dev2, none) => (dev2, [], none)
  | (dev2, some (selC, selCr, selP)) =>
    if !env.leaseIoctlOk then (dev2, [], none)
    else
      let lid := dev2.nextLeaseId
      match stampConnectorsGo dev2 lid selC [] with
      | (dev3, evs) =>
        let dev4 := stampCrtcsGo lid selCr dev3
        let dev5 := stampPlanesGo lid selP dev4
        let data : MLeaseData := ⟨selC, selCr, selP, false⟩
        ({ dev5 with leases := dev5.leases ++ [(lid, data)],
                     nextLeaseId := dev5.nextLeaseId + 1 },
         evs, some ⟨lid, env.leaseFd⟩)

/-! ### Claim C2 -/

theorem resetPlanesGo_infence (pres : MPreserve) (ps : List MPlane) (dev : MDevice)
    (p : MPlane) (hp : p ∈ ps) (hnp : pres.planes.contains p.id = false) :
    (⟨p.id, .inFenceFd, -1⟩ : PropChange) ∈ (resetPlanesGo pres ps dev).2 := by
  induction ps generalizing dev with
  | nil => cases hp
  | cons q rest ih =>
    rcases List.mem_cons.mp hp with h | h
    · subst h
      unfold resetPlanesGo
      rw [if_neg (by rw [hnp]; simp)]
      simp
    · unfold resetPlanesGo
      by_cases hq : pres.planes.contains q.id = true
      · rw [if_pos hq]
        exact ih _ h
      · rw [Bool.not_eq_true] at hq
        rw [if_neg (by rw [hq]; simp)]
        simp only [List.mem_append, List.mem_cons]
        right
        exact ih _ h

/-- C2 amended: on an NVIDIA device the present path (primary plane and
cursor plane updates, including the retry) never writes IN_FENCE_FD; but
`reset_planes`, which every solver pass runs (video.rs line 2417, called
from init_drm_device for modesets, hot-plug handling, and resume), writes
IN_FENCE_FD = -1 on every plane outside the preserve set regardless of
`is_nvidia` (video.rs line 2201). -/
theorem C2_amended_infence (env : PresentEnv) (s : ConnectorState)
    (dev : MDevice) (pres : MPreserve) (p : MPlane)
    (hN : s.isNvidia = true)
    (hp : p ∈ dev.planes)
    (hnp : pres.planes.contains p.id = false) :
    (∀ ch ∈ (present env s).2.2, ∀ pc ∈ ch, pc.prop ≠ PropName.inFenceFd) ∧
    (⟨p.id, .inFenceFd, -1⟩ : PropChange) ∈ (resetPlanes dev pres).2 :=
  ⟨present_no_infence env s hN, resetPlanesGo_infence pres dev.planes dev p hp hnp⟩

/-- The single plane of the C2 counterexample device. -/
def c2plane : MPlane :=
  { id := 21, ty := .primary, formats := [(xrgb8888, [0])], lease := none,
    assigned := false, crtcIdVal := 0, modeW := 0, modeH := 0 }

/-- C2 counterexample device: an NVIDIA device with one primary plane and
nothing else. -/
def c2dev : MDevice :=
  { connectors := [], crtcs := [], planes := [c2plane], blobs := [],
    leases := [], leasesToBreak := [], nextLeaseId := 1, isNvidia := true }

/-- Solver oracle for the C1 and C2 counterexamples: everything succeeds. -/
def cexSolverEnv : SolverEnv :=
  { hasRenderCtx := true, deactCommitOk := true, finalCommitOk := true,
    revokeOk := fun _ => false, blobIdFor := fun _ => none,
    scanoutBuffersOk := fun _ => true, cursorBuffersOk := fun _ => true,
    primaryFbId := fun _ => 0 }

/-- The empty preserve set. -/
def emptyPreserve : MPreserve := ⟨[], [], []⟩

/-- C2 counterexample: on the NVIDIA device `c2dev`, the solver pass
(`init_drm_device`) builds a commit whose plane-reset section writes
IN_FENCE_FD, contradicting the claim that no commit built by any operation
(including plane reset) ever includes an IN_FENCE_FD change on an NVIDIA
device. -/
theorem C2_cex_reset_writes_infence_on_nvidia :
    c2dev.isNvidia = true ∧
    initChanges (initDrmDevice cexSolverEnv c2dev emptyPreserve) =
      some [[], [⟨21, .crtcId, 0⟩, ⟨21, .fbId, 0⟩, ⟨21, .inFenceFd, -1⟩]] ∧
    (⟨21, PropName.inFenceFd, -1⟩ : PropChange) ∈
      [(⟨21, .crtcId, 0⟩ : PropChange), ⟨21, .fbId, 0⟩, ⟨21, .inFenceFd, -1⟩] := by
  refine ⟨rfl, rfl, by decide⟩

/-- Concrete NVIDIA connector state for the C2 witness. -/
def c2wstate : ConnectorState :=
  { hasDamage := true, cursorChanged := true, canPresent := true,
    hasCrtc := true, crtcId := 1, crtcActive := true,
    hasPrimaryPlane := true, planeId := 2, planeModeW := 800, planeModeH := 600,
    hasBuffers := true, nextBuffer := 0, hasCursorPlane := true,
    cursorPlaneId := 3, cursorEnabled := true, cursorSwapBuffer := false,
    cursorFrontBuffer := 0, cursorSyncFile := none, cursorX := 5, cursorY := 6,
    scanoutCache := [], pendingFeedback := 0, nextFramebuffer := none,
    directScanoutActive := false, isNvidia := true }

/-- Concrete environment for the C2 witness. -/
def c2wenv : PresentEnv :=
  { renderContextOk := true, hasOutputNode := true,
    directScanoutEnabledDev := false, probe := none, renderFbId := 9,
    renderSyncFile := some 4, renderPassOk := true, cursorCopyOk := true,
    cursorCopySync := none, cursorFbId := fun i => 100 + i, cursorWidth := 64,
    cursorHeight := 64, firstCommit := .ok, retryCommit := .ok }

/-- C2 witness: the amended theorem applied to the concrete NVIDIA present
state and the concrete reset input. -/
theorem C2_witness :
    (c2wstate.isNvidia = true ∧ c2plane ∈ c2dev.planes ∧
     emptyPreserve.planes.contains c2plane.id = false) ∧
    ((∀ ch ∈ (present c2wenv c2wstate).2.2, ∀ pc ∈ ch,
        pc.prop ≠ PropName.inFenceFd) ∧
     (⟨c2plane.id, .inFenceFd, -1⟩ : PropChange) ∈
        (resetPlanes c2dev emptyPreserve).2) :=
  ⟨⟨rfl, by decide, rfl⟩,
   C2_amended_infence c2wenv c2wstate c2dev emptyPreserve c2plane rfl (by decide) rfl⟩

/-! ### Claim C3 -/

theorem deactivateCrtcsGo_quiescent (used : List Nat) (crs : List MCrtc) (dev : MDevice)
    (h : ∀ cr ∈ crs, used.contains cr.id = false → cr.active = false) :
    deactivateCrtcsGo used crs dev =
      (dev, crs.map (fun cr => ⟨cr.id, PropName.outFencePtr, 0⟩), 0) := by
  induction crs generalizing dev with
  | nil => rfl
  | cons cr rest ih =>
    have hdeact : (!used.contains cr.id && cr.active) = false := by
      by_cases hc : used.contains cr.id = true
      · rw [hc]
        simp
      · rw [Bool.not_eq_true] at hc
        rw [hc, h cr (List.mem_cons_self cr rest) hc]
        simp
    unfold deactivateCrtcsGo
    rw [hdeact]
    simp only [Bool.false_eq_true, if_false, List.nil_append]
    rw [ih dev (fun c hc => h c (List.mem_cons_of_mem cr hc))]
    simp

theorem resetPlanesGo_shape (pres : MPreserve) (ps : List MPlane) (dev : MDevice) :
    ∀ pc ∈ (resetPlanesGo pres ps dev).2,
      ∃ p, p ∈ ps ∧ pres.planes.contains p.id = false ∧ pc.obj = p.id ∧
        (pc.prop = PropName.crtcId ∨ pc.prop = PropName.fbId ∨
          pc.prop = PropName.inFenceFd) := by
  induction ps generalizing dev with
  | nil =>
    intro pc hpc
    simp [resetPlanesGo] at hpc
  | cons q rest ih =>
    intro pc hpc
    unfold resetPlanesGo at hpc
    by_cases hq : pres.planes.contains q.id = true
    · rw [if_pos hq] at hpc
      obtain ⟨p, hp, hh⟩ := ih dev pc hpc
      exact ⟨p, List.mem_cons_of_mem q hp, hh⟩
    · rw [Bool.not_eq_true] at hq
      rw [if_neg (by rw [hq]; simp)] at hpc
      rcases List.mem_append.mp hpc with h | h
      · refine ⟨q, List.mem_cons_self q rest, hq, ?_⟩
        simp only [List.mem_cons, List.not_mem_nil, or_false] at h
        rcases h with h | h | h <;> subst h <;> simp
      · obtain ⟨p, hp, hh⟩ := ih _ pc h
        exact ⟨p, List.mem_cons_of_mem q hp, hh⟩

theorem resetPlanesGo_connectors (pres : MPreserve) (ps : List MPlane) (dev : MDevice) :
    (resetPlanesGo pres ps dev).1.connectors = dev.connectors := by
  induction ps generalizing dev with
  | nil => rfl
  | cons q rest ih =>
    unfold resetPlanesGo
    by_cases hq : pres.planes.contains q.id = true
    · rw [if_pos hq]
      exact ih dev
    · rw [Bool.not_eq_true] at hq
      rw [if_neg (by rw [hq]; simp)]
      exact ih _

theorem resetPlanes_connectors (dev : MDevice) (pres : MPreserve) :
    (resetPlanes dev pres).1.connectors = dev.connectors :=
  resetPlanesGo_connectors pres dev.planes dev

theorem assignPlanesGo_all_preserved (env : SolverEnv) (ids : List Nat)
    (pres : MPreserve) (dev : MDevice)
    (h : ∀ cid ∈ ids, pres.connectors.contains cid = true) :
    assignPlanesGo env ids pres dev = (dev, []) := by
  induction ids generalizing dev with
  | nil => rfl
  | cons cid rest ih =>
    unfold assignPlanesGo
    rw [if_pos (h cid (List.mem_cons_self cid rest))]
    exact ih dev (fun c hc => h c (List.mem_cons_of_mem cid hc))

theorem breakLeases_empty (r : Nat → Bool) (dev : MDevice)
    (h : dev.leasesToBreak = []) :
    breakLeases r dev = dev := by
  unfold breakLeases
  rw [h]
  unfold breakLeasesGo
  cases dev
  simp_all

theorem canUse_eq_of_walk (env : SolverEnv) (dev dev1 : MDevice) (used : List Nat)
    (hWalk : canUseWalkGo dev dev.connectors [] [] = some (true, dev1, used)) :
    canUseCurrentDrmMode env dev =
      some (env.deactCommitOk, (deactivateCrtcsGo used dev1.crtcs dev1).1,
        [⟨(deactivateCrtcsGo used dev1.crtcs dev1).2.1,
          (deactivateCrtcsGo used dev1.crtcs dev1).2.2⟩]) := by
  unfold canUseCurrentDrmMode
  rw [hWalk]

/-- C3 amended: running the solver pass with preserve = all connectors
over a stable configuration (the preserve validation retains every
connector, the no-op feasibility walk succeeds, and no CRTC needs
deactivation) performs no modeset — both commits carry flags 0 — but it
does not emit zero property changes: the no-op feasibility commit clears
OUT_FENCE_PTR on every CRTC (video.rs line 2510), and the final commit
re-emits the plane resets (CRTC_ID = 0, FB_ID = 0, IN_FENCE_FD = -1) for
every plane not belonging to a preserved connector (video.rs line 2417). -/
theorem C3_amended_stable_pass (env : SolverEnv) (dev : MDevice) (preserve : MPreserve)
    (dev1 : MDevice) (used : List Nat)
    (hB : dev.leasesToBreak = [])
    (hCtx : env.hasRenderCtx = true)
    (hWalk : canUseWalkGo dev dev.connectors [] [] = some (true, dev1, used))
    (hNoDeact : ∀ cr ∈ dev1.crtcs, used.contains cr.id = false → cr.active = false)
    (hAll : ∀ c ∈ dev1.connectors,
      (validatePreserve dev preserve).connectors.contains c.id = true)
    (hDC : env.deactCommitOk = true)
    (hFC : env.finalCommitOk = true) :
    initDrmDevice env dev preserve =
      some (.ok (resetPlanes dev1 (validatePreserve dev preserve)).1,
        [⟨dev1.crtcs.map (fun cr => ⟨cr.id, PropName.outFencePtr, 0⟩), 0⟩,
         ⟨(resetPlanes dev1 (validatePreserve dev preserve)).2, 0⟩]) ∧
    (∀ pc ∈ (resetPlanes dev1 (validatePreserve dev preserve)).2,
      ∃ p, p ∈ dev1.planes ∧
        (validatePreserve dev preserve).planes.contains p.id = false ∧
        pc.obj = p.id ∧
        (pc.prop = PropName.crtcId ∨ pc.prop = PropName.fbId ∨
          pc.prop = PropName.inFenceFd)) := by
  have hDeact := deactivateCrtcsGo_quiescent used dev1.crtcs dev1 hNoDeact
  have hBL : breakLeases env.revokeOk dev = dev := breakLeases_empty env.revokeOk dev hB
  have hCU : canUseCurrentDrmMode env dev =
      some (true, dev1,
        [⟨dev1.crtcs.map (fun cr => ⟨cr.id, PropName.outFencePtr, 0⟩), 0⟩]) := by
    rw [canUse_eq_of_walk env dev dev1 used hWalk, hDeact, hDC]
  have hAssign : assignPlanesGo env
      ((resetPlanes dev1 (validatePreserve dev preserve)).1.connectors.map
        (fun c => c.id))
      (validatePreserve dev preserve)
      (resetPlanes dev1 (validatePreserve dev preserve)).1 =
      ((resetPlanes dev1 (validatePreserve dev preserve)).1, []) := by
    refine assignPlanesGo_all_preserved env _ _ _ ?_
    intro cid hcid
    rw [resetPlanes_connectors] at hcid
    obtain ⟨c, hc, hcideq⟩ := List.mem_map.mp hcid
    rw [← hcideq]
    exact hAll c hc
  refine ⟨?_, resetPlanesGo_shape _ _ _⟩
  unfold initDrmDevice
  rw [hBL]
  simp only [hCtx, Bool.not_true, Bool.false_eq_true, if_false, hCU, if_true, hFC]
  rw [hAssign]
  simp [resetPlanes]

/-- A concrete 800x600 mode for the C3 stable configuration. -/
def c3mode : ModeInfoM :=
  { clock := 40000, hdisplay := 800, hsyncStart := 840, hsyncEnd := 968,
    htotal := 1056, hskew := 0, vdisplay := 600, vsyncStart := 601,
    vsyncEnd := 605, vtotal := 628, vscan := 0, vrefresh := 60, flags := 0 }

/-- The crtc of the C3 stable device, already driving connector 1 with
mode blob 100. -/
def c3crtc : MCrtc :=
  { id := 10, idx := 0, lease := none, possiblePlanes := [20],
    connector := some 1, active := true, modeIdVal := 100 }

/-- The primary plane of the C3 stable device, already routed to CRTC 10. -/
def c3plane : MPlane :=
  { id := 20, ty := .primary, formats := [(xrgb8888, [0])], lease := none,
    assigned := true, crtcIdVal := 10, modeW := 800, modeH := 600 }

/-- The connector of the C3 stable device: enabled, connected, desktop,
with its cached CRTC active and matching mode. -/
def c3conn : MConnector :=
  { id := 1, enabled := true, connected := true, nonDesktopEffective := false,
    crtcIdVal := 10, mode := some c3mode, ddCrtcs := [10], crtc := some 10,
    primaryPlane := some 20, cursorPlane := none, lease := none,
    frontState := .connected false }

/-- The C3 stable device. -/
def c3dev : MDevice :=
  { connectors := [c3conn], crtcs := [c3crtc], planes := [c3plane],
    blobs := [(100, c3mode)], leases := [], leasesToBreak := [],
    nextLeaseId := 1, isNvidia := false }

/-- Preserve set holding every connector of `c3dev`. -/
def c3pres : MPreserve := ⟨[1], [], []⟩

/-- Solver oracle for the C3 counterexample and witness. -/
def c3env : SolverEnv :=
  { hasRenderCtx := true, deactCommitOk := true, finalCommitOk := true,
    revokeOk := fun _ => true, blobIdFor := fun _ => some 100,
    scanoutBuffersOk := fun _ => true, cursorBuffersOk := fun _ => true,
    primaryFbId := fun _ => 30 }

/-- C3 counterexample: the solver pass with preserve = all connectors over
the stable configuration `c3dev` emits an OUT_FENCE_PTR change on the
CRTC, so it does not emit zero property changes. -/
theorem C3_cex_stable_pass_emits_changes :
    initChanges (initDrmDevice c3env c3dev c3pres) =
      some [[⟨10, PropName.outFencePtr, 0⟩], []] ∧
    initChanges (initDrmDevice c3env c3dev c3pres) ≠ some [[], []] :=
  ⟨rfl, by decide⟩

/-- C3 witness: the amended theorem applied to the concrete stable
device. -/
theorem C3_witness :
    (c3dev.leasesToBreak = [] ∧
     c3env.hasRenderCtx = true ∧
     canUseWalkGo c3dev c3dev.connectors [] [] = some (true, c3dev, [10]) ∧
     (∀ cr ∈ c3dev.crtcs, List.contains [10] cr.id = false → cr.active = false) ∧
     (∀ c ∈ c3dev.connectors,
       (validatePreserve c3dev c3pres).connectors.contains c.id = true) ∧
     c3env.deactCommitOk = true ∧
     c3env.finalCommitOk = true) ∧
    (initDrmDevice c3env c3dev c3pres =
      some (.ok (resetPlanes c3dev (validatePreserve c3dev c3pres)).1,
        [⟨c3dev.crtcs.map (fun cr => ⟨cr.id, PropName.outFencePtr, 0⟩), 0⟩,
         ⟨(resetPlanes c3dev (validatePreserve c3dev c3pres)).2, 0⟩]) ∧
     (∀ pc ∈ (resetPlanes c3dev (validatePreserve c3dev c3pres)).2,
       ∃ p, p ∈ c3dev.planes ∧
         (validatePreserve c3dev c3pres).planes.contains p.id = false ∧
         pc.obj = p.id ∧
         (pc.prop = PropName.crtcId ∨ pc.prop = PropName.fbId ∨
           pc.prop = PropName.inFenceFd))) :=
  ⟨⟨rfl, rfl, by decide, by decide, by decide, rfl, rfl⟩,
   C3_amended_stable_pass c3env c3dev c3pres c3dev [10]
     rfl rfl (by decide) (by decide) (by decide) rfl rfl⟩

/-! ### Lease broker lemmas -/

/-- No object of the device is stamped with the given lease id. -/
def noLeaseStamp (dev : MDevice) (lid : Nat) : Prop :=
  (∀ c ∈ dev.connectors, c.lease ≠ some lid) ∧
  (∀ cr ∈ dev.crtcs, cr.lease ≠ some lid) ∧
  (∀ p ∈ dev.planes, p.lease ≠ some lid)

theorem mapIds_eq {α : Type} (key : α → Nat) (l : List α) (g : α → α)
    (hg : ∀ c, key (g c) = key c) :
    (l.map g).map key = l.map key := by
  induction l with
  | nil => rfl
  | cons a r ih => simp [ih, hg a]

theorem mapPairs_eq (l : List MConnector) (g : MConnector → MConnector)
    (hg : ∀ c, (g c).id = c.id ∧ (g c).frontState = c.frontState) :
    (l.map g).map (fun c => (c.id, c.frontState)) =
      l.map (fun c => (c.id, c.frontState)) := by
  induction l with
  | nil => rfl
  | cons a r ih => simp [ih, (hg a).1, (hg a).2]

theorem findById_isSome_eq {α : Type} (key : α → Nat) (l1 l2 : List α)
    (h : l1.map key = l2.map key) (i : Nat) :
    (l1.find? (fun c => key c == i)).isSome =
      (l2.find? (fun c => key c == i)).isSome := by
  induction l1 generalizing l2 with
  | nil =>
    cases l2 with
    | nil => rfl
    | cons b r2 => simp at h
  | cons a r1 ih =>
    cases l2 with
    | nil => simp at h
    | cons b r2 =>
      simp only [List.map_cons, List.cons.injEq] at h
      rw [List.find?_cons, List.find?_cons, h.1]
      by_cases hb : (key b == i) = true
      · simp [hb]
      · rw [Bool.not_eq_true] at hb
        simp [hb, ih r2 h.2]

theorem findConnState_eq (l1 l2 : List MConnector)
    (h : l1.map (fun c => (c.id, c.frontState)) =
      l2.map (fun c => (c.id, c.frontState))) (i : Nat) :
    (l1.find? (fun c => c.id == i)).map (fun c => c.frontState) =
      (l2.find? (fun c => c.id == i)).map (fun c => c.frontState) := by
  induction l1 generalizing l2 with
  | nil =>
    cases l2 with
    | nil => rfl
    | cons b r2 => simp at h
  | cons a r1 ih =>
    cases l2 with
    | nil => simp at h
    | cons b r2 =>
      simp only [List.map_cons, List.cons.injEq, Prod.mk.injEq] at h
      rw [List.find?_cons, List.find?_cons, h.1.1]
      by_cases hb : (b.id == i) = true
      · simp [hb, h.1.2]
      · rw [Bool.not_eq_true] at hb
        simp [hb, ih r2 h.2]

theorem find_map_update {α : Type} (key : α → Nat) (l : List α) (i j : Nat)
    (f : α → α) (hf : ∀ c, key (f c) = key c) :
    (l.map (fun c => if key c = i then f c else c)).find? (fun c => key c == j) =
      (l.find? (fun c => key c == j)).map (fun c => if key c = i then f c else c) := by
  induction l with
  | nil => rfl
  | cons a r ih =>
    simp only [List.map_cons]
    rw [List.find?_cons, List.find?_cons]
    by_cases ha : (key a == j) = true
    · have hkey : (key (if key a = i then f a else a) == j) = true := by
        by_cases hai : key a = i
        · rw [if_pos hai, hf a]
          exact ha
        · rw [if_neg hai]
          exact ha
      rw [hkey, ha]
      rfl
    · rw [Bool.not_eq_true] at ha
      have hkey : (key (if key a = i then f a else a) == j) = false := by
        by_cases hai : key a = i
        · rw [if_pos hai, hf a]
          exact ha
        · rw [if_neg hai]
          exact ha
      rw [hkey, ha]
      exact ih

theorem findConnector_update (dev : MDevice) (i j : Nat) (f : MConnector → MConnector)
    (hf : ∀ c, (f c).id = c.id) :
    findConnector (updateConnector dev i f) j =
      (findConnector dev j).map (fun c => if c.id = i then f c else c) := by
  unfold findConnector updateConnector
  exact find_map_update (fun c => c.id) dev.connectors i j f hf

theorem findCrtc_update (dev : MDevice) (i j : Nat) (f : MCrtc → MCrtc)
    (hf : ∀ c, (f c).id = c.id) :
    findCrtc (updateCrtc dev i f) j =
      (findCrtc dev j).map (fun c => if c.id = i then f c else c) := by
  unfold findCrtc updateCrtc
  exact find_map_update (fun c => c.id) dev.crtcs i j f hf

theorem findPlane_update (dev : MDevice) (i j : Nat) (f : MPlane → MPlane)
    (hf : ∀ c, (f c).id = c.id) :
    findPlane (updatePlane dev i f) j =
      (findPlane dev j).map (fun c => if c.id = i then f c else c) := by
  unfold findPlane updatePlane
  exact find_map_update (fun c => c.id) dev.planes i j f hf

theorem clearLeaseObjects_noStamp (dev : MDevice) (d : MLeaseData) (lid : Nat)
    (h : noLeaseStamp dev lid) : noLeaseStamp (clearLeaseObjects dev d) lid := by
  obtain ⟨h1, h2, h3⟩ := h
  refine ⟨?_, ?_, ?_⟩ <;> intro x hx
  · obtain ⟨c, hc, hcx⟩ := List.mem_map.mp hx
    by_cases hm : d.connectors.contains c.id = true
    · rw [if_pos hm] at hcx
      rw [← hcx]
      simp
    · rw [Bool.not_eq_true] at hm
      rw [if_neg (by rw [hm]; simp)] at hcx
      rw [← hcx]
      exact h1 c hc
  · obtain ⟨c, hc, hcx⟩ := List.mem_map.mp hx
    by_cases hm : d.crtcs.contains c.id = true
    · rw [if_pos hm] at hcx
      rw [← hcx]
      simp
    · rw [Bool.not_eq_true] at hm
      rw [if_neg (by rw [hm]; simp)] at hcx
      rw [← hcx]
      exact h2 c hc
  · obtain ⟨c, hc, hcx⟩ := List.mem_map.mp hx
    by_cases hm : d.planes.contains c.id = true
    · rw [if_pos hm] at hcx
      rw [← hcx]
      simp
    · rw [Bool.not_eq_true] at hm
      rw [if_neg (by rw [hm]; simp)] at hcx
      rw [← hcx]
      exact h3 c hc

/-- The frame facts preserved by every stale-revocation step and hence by
the whole selection loop. -/
def devFrame (a b : MDevice) : Prop :=
  b.leases = a.leases ∧
  b.nextLeaseId = a.nextLeaseId ∧
  b.connectors.map (fun c => (c.id, c.frontState)) =
    a.connectors.map (fun c => (c.id, c.frontState)) ∧
  b.crtcs.map (fun c => c.id) = a.crtcs.map (fun c => c.id) ∧
  b.planes.map (fun p => p.id) = a.planes.map (fun p => p.id) ∧
  (∀ lid, noLeaseStamp a lid → noLeaseStamp b lid)

theorem devFrame_refl (a : MDevice) : devFrame a a :=
  ⟨rfl, rfl, rfl, rfl, rfl, fun _ h => h⟩

theorem devFrame_trans (a b c : MDevice) (h1 : devFrame a b) (h2 : devFrame b c) :
    devFrame a c := by
  obtain ⟨x1, x2, x3, x4, x5, x6⟩ := h1
  obtain ⟨y1, y2, y3, y4, y5, y6⟩ := h2
  exact ⟨y1.trans x1, y2.trans x2, y3.trans x3, y4.trans x4, y5.trans x5,
    fun lid hl => y6 lid (x6 lid hl)⟩

theorem clearLeaseObjects_frame (dev : MDevice) (d : MLeaseData) :
    devFrame dev (clearLeaseObjects dev d) := by
  refine ⟨rfl, rfl, ?_, ?_, ?_, fun lid h => clearLeaseObjects_noStamp dev d lid h⟩
  · refine mapPairs_eq dev.connectors _ ?_
    intro c
    by_cases hm : d.connectors.contains c.id = true
    · rw [if_pos hm]
      exact ⟨rfl, rfl⟩
    · rw [Bool.not_eq_true] at hm
      rw [if_neg (by rw [hm]; simp)]
      exact ⟨rfl, rfl⟩
  · refine mapIds_eq (fun c => c.id) dev.crtcs _ ?_
    intro c
    by_cases hm : d.crtcs.contains c.id = true
    · rw [if_pos hm]
    · rw [Bool.not_eq_true] at hm
      rw [if_neg (by rw [hm]; simp)]
  · refine mapIds_eq (fun p => p.id) dev.planes _ ?_
    intro c
    by_cases hm : d.planes.contains c.id = true
    · rw [if_pos hm]
    · rw [Bool.not_eq_true] at hm
      rw [if_neg (by rw [hm]; simp)]

theorem revokeStale_frame (r : Nat → Bool) (dev : MDevice) (c : MConnector) :
    devFrame dev (revokeStale r dev c) := by
  rcases hcl : c.lease with _ | lid
  · simp only [revokeStale, hcl]
    exact devFrame_refl dev
  · rcases hlk : lookupLease dev.leasesToBreak lid with _ | d
    · simp only [revokeStale, hcl, hlk]
      exact devFrame_refl dev
    · simp only [revokeStale, hcl, hlk, tryRevoke]
      by_cases hrev : d.revoked = true
      · rw [if_pos hrev]
        exact ⟨rfl, rfl, rfl, rfl, rfl, fun _ h => h⟩
      · rw [Bool.not_eq_true] at hrev
        rw [if_neg (by rw [hrev]; simp)]
        by_cases hr : r lid = true
        · rw [if_pos hr]
          obtain ⟨x1, x2, x3, x4, x5, x6⟩ := clearLeaseObjects_frame dev d
          exact ⟨x1, x2, x3, x4, x5, x6⟩
        · rw [Bool.not_eq_true] at hr
          rw [if_neg (by rw [hr]; simp)]
          exact devFrame_refl dev

theorem findConnector_id (dev : MDevice) (i : Nat) (c : MConnector)
    (h : findConnector dev i = some c) : c.id = i := by
  unfold findConnector at h
  have := List.find?_some h
  simpa using this

theorem findCrtc_id (dev : MDevice) (i : Nat) (c : MCrtc)
    (h : findCrtc dev i = some c) : c.id = i := by
  unfold findCrtc at h
  have := List.find?_some h
  simpa using this

theorem findPlane_id (dev : MDevice) (i : Nat) (p : MPlane)
    (h : findPlane dev i = some p) : p.id = i := by
  unfold findPlane at h
  have := List.find?_some h
  simpa using this

theorem devFrame_connState (a b : MDevice) (h : devFrame a b) (j : Nat) :
    (findConnector b j).map (fun c => c.frontState) =
      (findConnector a j).map (fun c => c.frontState) := by
  exact findConnState_eq b.connectors a.connectors h.2.2.1 j

theorem devFrame_crtcSome (a b : MDevice) (h : devFrame a b) (j : Nat) :
    (findCrtc b j).isSome = (findCrtc a j).isSome := by
  exact findById_isSome_eq (fun c => c.id) b.crtcs a.crtcs h.2.2.2.1 j

theorem devFrame_planeSome (a b : MDevice) (h : devFrame a b) (j : Nat) :
    (findPlane b j).isSome = (findPlane a j).isSome := by
  exact findById_isSome_eq (fun p => p.id) b.planes a.planes h.2.2.2.2.1 j

theorem lookupLease_append_fresh (l : List (Nat × MLeaseData)) (lid : Nat)
    (d : MLeaseData) (h : lookupLease l lid = none) :
    lookupLease (l ++ [(lid, d)]) lid = some d := by
  induction l with
  | nil => simp [lookupLease, List.find?_cons]
  | cons a rest ih =>
    unfold lookupLease at h ⊢
    rw [List.find?_cons] at h
    rw [List.cons_append, List.find?_cons]
    by_cases hpa : (a.1 == lid) = true
    · rw [hpa] at h
      simp at h
    · rw [Bool.not_eq_true] at hpa
      rw [hpa] at h ⊢
      exact ih h

theorem leaseFindCrtc_found (dev : MDevice) (cands sel : List Nat) (cr : MCrtc)
    (h : leaseFindCrtc dev cands sel = some cr) :
    findCrtc dev cr.id = some cr ∧ cr.connector = none ∧ cr.lease = none := by
  induction cands with
  | nil => exact absurd h (by simp [leaseFindCrtc])
  | cons x rest ih =>
    rcases hf : findCrtc dev x with _ | cr0
    · unfold leaseFindCrtc at h
      rw [hf] at h
      exact ih h
    · simp only [leaseFindCrtc, hf] at h
      split at h
      · rename_i hcond
        injection h with heq
        subst heq
        have hid : cr0.id = x := findCrtc_id dev x cr0 hf
        rw [hid]
        exact ⟨hf, hcond.1, hcond.2.1⟩
      · exact ih h

theorem leaseFindPlane_found (dev : MDevice) (pids sel : List Nat) (p : MPlane)
    (h : leaseFindPlane dev pids sel = some p) :
    findPlane dev p.id = some p ∧ p.assigned = false ∧ p.lease = none ∧
      p.ty = PlaneTypeM.primary := by
  induction pids with
  | nil => exact absurd h (by simp [leaseFindPlane])
  | cons x rest ih =>
    rcases hf : findPlane dev x with _ | p0
    · unfold leaseFindPlane at h
      rw [hf] at h
      exact ih h
    · simp only [leaseFindPlane, hf] at h
      split at h
      · rename_i hcond
        injection h with heq
        subst heq
        have hid : p0.id = x := findPlane_id dev x p0 hf
        rw [hid]
        exact ⟨hf, hcond.1, hcond.2.1, hcond.2.2.2⟩
      · exact ih h

theorem stampConnector_eval (dev : MDevice) (lid cid : Nat) (c : MConnector)
    (hc : findConnector dev cid = some c) :
    stampConnector dev lid cid =
      (updateConnector dev cid (fun q =>
        { q with lease := some lid,
                 frontState := (sendEvent c.frontState CEvent.unavailableEv).state }),
       if (sendEvent c.frontState CEvent.unavailableEv).delivered then
         [(cid, CEvent.unavailableEv)] else []) := by
  simp only [stampConnector, hc]

theorem stampConnectorsGo_spec (lid : Nat) (cids : List Nat) (dev : MDevice)
    (evs : List (Nat × CEvent))
    (hpres : ∀ cid ∈ cids, (findConnector dev cid).isSome = true)
    (hstate : ∀ cid ∈ cids,
      (findConnector dev cid).map (fun c => c.frontState) =
          some (FrontState.connected true) ∨
        (cid, CEvent.unavailableEv) ∈ evs) :
    (∀ cid ∈ cids, ∃ c,
        findConnector (stampConnectorsGo dev lid cids evs).1 cid = some c ∧
          c.lease = some lid) ∧
    (∀ cid ∈ cids, (cid, CEvent.unavailableEv) ∈ (stampConnectorsGo dev lid cids evs).2) ∧
    (stampConnectorsGo dev lid cids evs).1.crtcs = dev.crtcs ∧
    (stampConnectorsGo dev lid cids evs).1.planes = dev.planes ∧
    (stampConnectorsGo dev lid cids evs).1.leases = dev.leases ∧
    (stampConnectorsGo dev lid cids evs).1.nextLeaseId = dev.nextLeaseId ∧
    (∀ e ∈ evs, e ∈ (stampConnectorsGo dev lid cids evs).2) ∧
    (∀ j, (∃ c, findConnector dev j = some c ∧ c.lease = some lid) →
      ∃ c, findConnector (stampConnectorsGo dev lid cids evs).1 j = some c ∧
        c.lease = some lid) := by
  induction cids generalizing dev evs with
  | nil =>
    exact ⟨fun _ hc => absurd hc (List.not_mem_nil _),
      fun _ hc => absurd hc (List.not_mem_nil _), rfl, rfl, rfl, rfl,
      fun _ he => he, fun _ hj => hj⟩
  | cons cid rest ih =>
    obtain ⟨c, hc⟩ := Option.isSome_iff_exists.mp
      (hpres cid (List.mem_cons_self cid rest))
    have hcid : c.id = cid := findConnector_id dev cid c hc
    have hsc := stampConnector_eval dev lid cid c hc
    have hstep : stampConnectorsGo dev lid (cid :: rest) evs =
        stampConnectorsGo (stampConnector dev lid cid).1 lid rest
          (evs ++ (stampConnector dev lid cid).2) := rfl
    have hfind2 : ∀ j, findConnector (stampConnector dev lid cid).1 j =
        (findConnector dev j).map (fun q => if q.id = cid then
          { q with lease := some lid,
                   frontState := (sendEvent c.frontState CEvent.unavailableEv).state }
          else q) := by
      intro j
      rw [hsc]
      exact findConnector_update dev cid j _ (fun q => rfl)
    have hpres2 : ∀ j ∈ rest, (findConnector (stampConnector dev lid cid).1 j).isSome = true := by
      intro j hj
      rw [hfind2 j, Option.isSome_map']
      exact hpres j (List.mem_cons_of_mem cid hj)
    have hstamped : ∀ j, (∃ q, findConnector dev j = some q ∧ q.lease = some lid) →
        ∃ q, findConnector (stampConnector dev lid cid).1 j = some q ∧
          q.lease = some lid := by
      intro j hj
      obtain ⟨q, hq, hql⟩ := hj
      rw [hfind2 j, hq]
      by_cases hqc : q.id = cid
      · rw [Option.map_some']
        refine ⟨_, rfl, ?_⟩
        rw [if_pos hqc]
      · rw [Option.map_some']
        refine ⟨_, rfl, ?_⟩
        rw [if_neg hqc]
        exact hql
    have hcidStamped : ∃ q, findConnector (stampConnector dev lid cid).1 cid = some q ∧
        q.lease = some lid := by
      rw [hfind2 cid, hc, Option.map_some']
      refine ⟨_, rfl, ?_⟩
      rw [if_pos hcid]
    have hstate2 : ∀ j ∈ rest,
        (findConnector (stampConnector dev lid cid).1 j).map (fun q => q.frontState) =
            some (FrontState.connected true) ∨
          (j, CEvent.unavailableEv) ∈ evs ++ (stampConnector dev lid cid).2 := by
      intro j hj
      rcases hstate j (List.mem_cons_of_mem cid hj) with hst | hin
      · rcases hfj : findConnector dev j with _ | cj
        · rw [hfj] at hst
          simp at hst
        · rw [hfj, Option.map_some'] at hst
          injection hst with hst
          by_cases hjc : cj.id = cid
          · right
            have hjeq : j = cid := by
              rw [← findConnector_id dev j cj hfj, hjc]
            rw [List.mem_append]
            right
            rw [hsc]
            have hcc : c = cj := by
              rw [hjeq] at hfj
              rw [hc] at hfj
              injection hfj
            rw [hcc, hst, hjeq]
            simp [sendEvent]
          · left
            rw [hfind2 j, hfj, Option.map_some', Option.map_some', if_neg hjc, hst]
      · right
        rw [List.mem_append]
        left
        exact hin
    obtain ⟨i1, i2, i3, i4, i5, i6, i7, i8⟩ :=
      ih (stampConnector dev lid cid).1 (evs ++ (stampConnector dev lid cid).2)
        hpres2 hstate2
    have hfr : ((stampConnector dev lid cid).1.crtcs = dev.crtcs) ∧
        ((stampConnector dev lid cid).1.planes = dev.planes) ∧
        ((stampConnector dev lid cid).1.leases = dev.leases) ∧
        ((stampConnector dev lid cid).1.nextLeaseId = dev.nextLeaseId) := by
      rw [hsc]
      exact ⟨rfl, rfl, rfl, rfl⟩
    rw [hstep]
    refine ⟨?_, ?_, i3.trans hfr.1, i4.trans hfr.2.1, i5.trans hfr.2.2.1,
      i6.trans hfr.2.2.2, ?_, ?_⟩
    · intro j hj
      rcases List.mem_cons.mp hj with hjc | hjr
      · subst hjc
        exact i8 j hcidStamped
      · exact i1 j hjr
    · intro j hj
      rcases List.mem_cons.mp hj with hjc | hjr
      · subst hjc
        rcases hstate j (List.mem_cons_self j rest) with hst | hin
        · refine i7 _ ?_
          rw [List.mem_append]
          right
          rw [hc, Option.map_some'] at hst
          injection hst with hst
          rw [hsc, hst]
          simp [sendEvent]
        · refine i7 _ ?_
          rw [List.mem_append]
          left
          exact hin
      · exact i2 j hjr
    · intro e he
      refine i7 e ?_
      rw [List.mem_append]
      left
      exact he
    · intro j hj
      exact i8 j (hstamped j hj)

theorem stampCrtcsGo_spec (lid : Nat) (xs : List Nat) (dev : MDevice)
    (hpres : ∀ x ∈ xs, (findCrtc dev x).isSome = true) :
    (∀ x ∈ xs, ∃ cr, findCrtc (stampCrtcsGo lid xs dev) x = some cr ∧
        cr.lease = some lid) ∧
    (stampCrtcsGo lid xs dev).connectors = dev.connectors ∧
    (stampCrtcsGo lid xs dev).planes = dev.planes ∧
    (stampCrtcsGo lid xs dev).leases = dev.leases ∧
    (stampCrtcsGo lid xs dev).nextLeaseId = dev.nextLeaseId ∧
    (∀ j, (∃ cr, findCrtc dev j = some cr ∧ cr.lease = some lid) →
      ∃ cr, findCrtc (stampCrtcsGo lid xs dev) j = some cr ∧ cr.lease = some lid) := by
  induction xs generalizing dev with
  | nil =>
    exact ⟨fun _ hx => absurd hx (List.not_mem_nil _), rfl, rfl, rfl, rfl,
      fun _ hj => hj⟩
  | cons x rest ih =>
    obtain ⟨cr, hcr⟩ := Option.isSome_iff_exists.mp
      (hpres x (List.mem_cons_self x rest))
    have hx : cr.id = x := findCrtc_id dev x cr hcr
    have hstep : stampCrtcsGo lid (x :: rest) dev =
        stampCrtcsGo lid rest
          (updateCrtc dev x (fun q => { q with lease := some lid })) := rfl
    have hfind2 : ∀ j, findCrtc (updateCrtc dev x (fun q => { q with lease := some lid })) j =
        (findCrtc dev j).map (fun q => if q.id = x then { q with lease := some lid }
          else q) := by
      intro j
      exact findCrtc_update dev x j _ (fun q => rfl)
    have hpres2 : ∀ j ∈ rest,
        (findCrtc (updateCrtc dev x (fun q => { q with lease := some lid })) j).isSome = true := by
      intro j hj
      rw [hfind2 j, Option.isSome_map']
      exact hpres j (List.mem_cons_of_mem x hj)
    obtain ⟨i1, i2, i3, i4, i5, i6⟩ :=
      ih (updateCrtc dev x (fun q => { q with lease := some lid })) hpres2
    have hstamped : ∀ j, (∃ q, findCrtc dev j = some q ∧ q.lease = some lid) →
        ∃ q, findCrtc (updateCrtc dev x (fun q => { q with lease := some lid })) j =
          some q ∧ q.lease = some lid := by
      intro j hj
      obtain ⟨q, hq, hql⟩ := hj
      rw [hfind2 j, hq, Option.map_some']
      by_cases hqx : q.id = x
      · exact ⟨_, rfl, by rw [if_pos hqx]⟩
      · exact ⟨_, rfl, by rw [if_neg hqx]; exact hql⟩
    have hxStamped : ∃ q,
        findCrtc (updateCrtc dev x (fun q => { q with lease := some lid })) x = some q ∧
          q.lease = some lid := by
      rw [hfind2 x, hcr, Option.map_some']
      exact ⟨_, rfl, by rw [if_pos hx]⟩
    rw [hstep]
    refine ⟨?_, i2.trans rfl, i3.trans rfl, i4.trans rfl, i5.trans rfl, ?_⟩
    · intro j hj
      rcases List.mem_cons.mp hj with hjx | hjr
      · subst hjx
        exact i6 j hxStamped
      · exact i1 j hjr
    · intro j hj
      exact i6 j (hstamped j hj)

theorem stampPlanesGo_spec (lid : Nat) (xs : List Nat) (dev : MDevice)
    (hpres : ∀ x ∈ xs, (findPlane dev x).isSome = true) :
    (∀ x ∈ xs, ∃ p, findPlane (stampPlanesGo lid xs dev) x = some p ∧
        p.lease = some lid) ∧
    (stampPlanesGo lid xs dev).connectors = dev.connectors ∧
    (stampPlanesGo lid xs dev).crtcs = dev.crtcs ∧
    (stampPlanesGo lid xs dev).leases = dev.leases ∧
    (stampPlanesGo lid xs dev).nextLeaseId = dev.nextLeaseId ∧
    (∀ j, (∃ p, findPlane dev j = some p ∧ p.lease = some lid) →
      ∃ p, findPlane (stampPlanesGo lid xs dev) j = some p ∧ p.lease = some lid) := by
  induction xs generalizing dev with
  | nil =>
    exact ⟨fun _ hx => absurd hx (List.not_mem_nil _), rfl, rfl, rfl, rfl,
      fun _ hj => hj⟩
  | cons x rest ih =>
    obtain ⟨p, hp⟩ := Option.isSome_iff_exists.mp
      (hpres x (List.mem_cons_self x rest))
    have hx : p.id = x := findPlane_id dev x p hp
    have hstep : stampPlanesGo lid (x :: rest) dev =
        stampPlanesGo lid rest
          (updatePlane dev x (fun q => { q with lease := some lid })) := rfl
    have hfind2 : ∀ j, findPlane (updatePlane dev x (fun q => { q with lease := some lid })) j =
        (findPlane dev j).map (fun q => if q.id = x then { q with lease := some lid }
          else q) := by
      intro j
      exact findPlane_update dev x j _ (fun q => rfl)
    have hpres2 : ∀ j ∈ rest,
        (findPlane (updatePlane dev x (fun q => { q with lease := some lid })) j).isSome = true := by
      intro j hj
      rw [hfind2 j, Option.isSome_map']
      exact hpres j (List.mem_cons_of_mem x hj)
    obtain ⟨i1, i2, i3, i4, i5, i6⟩ :=
      ih (updatePlane dev x (fun q => { q with lease := some lid })) hpres2
    have hstamped : ∀ j, (∃ q, findPlane dev j = some q ∧ q.lease = some lid) →
        ∃ q, findPlane (updatePlane dev x (fun q => { q with lease := some lid })) j =
          some q ∧ q.lease = some lid := by
      intro j hj
      obtain ⟨q, hq, hql⟩ := hj
      rw [hfind2 j, hq, Option.map_some']
      by_cases hqx : q.id = x
      · exact ⟨_, rfl, by rw [if_pos hqx]⟩
      · exact ⟨_, rfl, by rw [if_neg hqx]; exact hql⟩
    have hxStamped : ∃ q,
        findPlane (updatePlane dev x (fun q => { q with lease := some lid })) x = some q ∧
          q.lease = some lid := by
      rw [hfind2 x, hp, Option.map_some']
      exact ⟨_, rfl, by rw [if_pos hx]⟩
    rw [hstep]
    refine ⟨?_, i2.trans rfl, i3.trans rfl, i4.trans rfl, i5.trans rfl, ?_⟩
    · intro j hj
      rcases List.mem_cons.mp hj with hjx | hjr
      · subst hjx
        exact i6 j hxStamped
      · exact i1 j hjr
    · intro j hj
      exact i6 j (hstamped j hj)

theorem leaseSelectLoop_frame (env : LeaseEnv) (ids : List Nat) : ∀ (dev : MDevice)
    (selC selCr selP : List Nat),
    devFrame dev (leaseSelectLoop env dev ids selC selCr selP).1 := by
  induction ids with
  | nil =>
    intro dev selC selCr selP
    exact devFrame_refl dev
  | cons i rest ih =>
    intro dev selC selCr selP
    rcases hf : findConnector dev i with _ | c
    · simp only [leaseSelectLoop, hf]
      exact devFrame_refl dev
    · cases hs : c.frontState with
      | connected nd =>
        cases nd with
        | true =>
          have hfr1 : devFrame dev (revokeStale env.revokeOk dev c) :=
            revokeStale_frame env.revokeOk dev c
          rcases hf2 : findConnector (revokeStale env.revokeOk dev c) i with _ | c2
          · simp only [leaseSelectLoop, hf, hs, hf2]
            exact hfr1
          · rcases hl : c2.lease with _ | l
            · rcases hcr : leaseFindCrtc (revokeStale env.revokeOk dev c) c2.ddCrtcs selCr
                with _ | crtc
              · simp only [leaseSelectLoop, hf, hs, hf2, hl, hcr]
                exact hfr1
              · rcases hpp : leaseFindPlane (revokeStale env.revokeOk dev c)
                    crtc.possiblePlanes selP with _ | p
                · simp only [leaseSelectLoop, hf, hs, hf2, hl, hcr, hpp]
                  exact hfr1
                · simp only [leaseSelectLoop, hf, hs, hf2, hl, hcr, hpp]
                  exact devFrame_trans _ _ _ hfr1 (ih _ _ _ _)
            · simp only [leaseSelectLoop, hf, hs, hf2, hl]
              exact hfr1
        | false =>
          simp only [leaseSelectLoop, hf, hs]
          exact devFrame_refl dev
      | removed =>
        simp only [leaseSelectLoop, hf, hs]
        exact devFrame_refl dev
      | disconnected =>
        simp only [leaseSelectLoop, hf, hs]
        exact devFrame_refl dev
      | unavailable =>
        simp only [leaseSelectLoop, hf, hs]
        exact devFrame_refl dev

theorem leaseSelectLoop_success (env : LeaseEnv) (ids : List Nat) : ∀ (dev : MDevice)
    (selC selCr selP : List Nat) (dev2 : MDevice) (rC rCr rP : List Nat),
    leaseSelectLoop env dev ids selC selCr selP = (dev2, some (rC, rCr, rP)) →
    rC = selC ++ ids ∧
    (∀ i ∈ ids, ∃ c, findConnector dev i = some c ∧
      c.frontState = FrontState.connected true) ∧
    (∀ x ∈ rCr, x ∈ selCr ∨ (findCrtc dev2 x).isSome = true) ∧
    (∀ x ∈ rP, x ∈ selP ∨ (findPlane dev2 x).isSome = true) := by
  induction ids with
  | nil =>
    intro dev selC selCr selP dev2 rC rCr rP h
    simp only [leaseSelectLoop, Prod.mk.injEq, Option.some.injEq] at h
    obtain ⟨hd, hc, hcr, hp⟩ := h
    subst hd
    subst hc
    subst hcr
    subst hp
    refine ⟨by simp, fun j hj => absurd hj (List.not_mem_nil _), ?_, ?_⟩
    · intro x hx
      exact Or.inl hx
    · intro x hx
      exact Or.inl hx
  | cons i rest ih =>
    intro dev selC selCr selP dev2 rC rCr rP h
    rcases hf : findConnector dev i with _ | c
    · rw [show leaseSelectLoop env dev (i :: rest) selC selCr selP = (dev, none) from by
        simp only [leaseSelectLoop, hf]] at h
      have hx := congrArg Prod.snd h
      simp at hx
    · cases hs : c.frontState with
      | connected nd =>
        cases nd with
        | true =>
          have hfr1 : devFrame dev (revokeStale env.revokeOk dev c) :=
            revokeStale_frame env.revokeOk dev c
          rcases hf2 : findConnector (revokeStale env.revokeOk dev c) i with _ | c2
          · rw [show leaseSelectLoop env dev (i :: rest) selC selCr selP =
                (revokeStale env.revokeOk dev c, none) from by
              simp only [leaseSelectLoop, hf, hs, hf2]] at h
            have hx := congrArg Prod.snd h
            simp at hx
          · rcases hl : c2.lease with _ | l
            · rcases hcr : leaseFindCrtc (revokeStale env.revokeOk dev c) c2.ddCrtcs selCr
                with _ | crtc
              · rw [show leaseSelectLoop env dev (i :: rest) selC selCr selP =
                    (revokeStale env.revokeOk dev c, none) from by
                  simp only [leaseSelectLoop, hf, hs, hf2, hl, hcr]] at h
                have hx := congrArg Prod.snd h
                simp at hx
              · rcases hpp : leaseFindPlane (revokeStale env.revokeOk dev c)
                    crtc.possiblePlanes selP with _ | p
                · rw [show leaseSelectLoop env dev (i :: rest) selC selCr selP =
                      (revokeStale env.revokeOk dev c, none) from by
                    simp only [leaseSelectLoop, hf, hs, hf2, hl, hcr, hpp]] at h
                  have hx := congrArg Prod.snd h
                  simp at hx
                · have hrec : leaseSelectLoop env (revokeStale env.revokeOk dev c) rest
                      (selC ++ [i]) (selCr ++ [crtc.id]) (selP ++ [p.id]) =
                      (dev2, some (rC, rCr, rP)) := by
                    rw [← h]
                    simp only [leaseSelectLoop, hf, hs, hf2, hl, hcr, hpp]
                  obtain ⟨ih1, ih2, ih3, ih4⟩ := ih _ _ _ _ _ _ _ _ hrec
                  have hfrR : devFrame (revokeStale env.revokeOk dev c) dev2 := by
                    have hq := leaseSelectLoop_frame env rest
                      (revokeStale env.revokeOk dev c) (selC ++ [i])
                      (selCr ++ [crtc.id]) (selP ++ [p.id])
                    rw [hrec] at hq
                    exact hq
                  refine ⟨?_, ?_, ?_, ?_⟩
                  · rw [ih1, List.append_assoc]
                    rfl
                  · intro j hj
                    rcases List.mem_cons.mp hj with hji | hjr
                    · subst hji
                      exact ⟨c, hf, hs⟩
                    · obtain ⟨c2j, hc2j, hc2s⟩ := ih2 j hjr
                      have htr := devFrame_connState dev
                        (revokeStale env.revokeOk dev c) hfr1 j
                      rw [hc2j, Option.map_some'] at htr
                      rcases hdj : findConnector dev j with _ | cj
                      · rw [hdj] at htr
                        simp at htr
                      · rw [hdj, Option.map_some'] at htr
                        injection htr with htr
                        exact ⟨cj, rfl, by rw [← htr, hc2s]⟩
                  · intro x hx
                    rcases ih3 x hx with hsel | hsome
                    · rcases List.mem_append.mp hsel with hsl | hsr
                      · exact Or.inl hsl
                      · right
                        have hxe : x = crtc.id := List.mem_singleton.mp hsr
                        subst hxe
                        obtain ⟨hfc, _, _⟩ := leaseFindCrtc_found
                          (revokeStale env.revokeOk dev c) c2.ddCrtcs selCr crtc hcr
                        rw [devFrame_crtcSome (revokeStale env.revokeOk dev c) dev2
                          hfrR crtc.id, hfc]
                        rfl
                    · exact Or.inr hsome
                  · intro x hx
                    rcases ih4 x hx with hsel | hsome
                    · rcases List.mem_append.mp hsel with hsl | hsr
                      · exact Or.inl hsl
                      · right
                        have hxe : x = p.id := List.mem_singleton.mp hsr
                        subst hxe
                        obtain ⟨hfp, _, _, _⟩ := leaseFindPlane_found
                          (revokeStale env.revokeOk dev c) crtc.possiblePlanes selP p hpp
                        rw [devFrame_planeSome (revokeStale env.revokeOk dev c) dev2
                          hfrR p.id, hfp]
                        rfl
                    · exact Or.inr hsome
            · rw [show leaseSelectLoop env dev (i :: rest) selC selCr selP =
                  (revokeStale env.revokeOk dev c, none) from by
                simp only [leaseSelectLoop, hf, hs, hf2, hl]] at h
              have hx := congrArg Prod.snd h
              simp at hx
        | false =>
          rw [show leaseSelectLoop env dev (i :: rest) selC selCr selP = (dev, none) from by
            simp only [leaseSelectLoop, hf, hs]] at h
          have hx := congrArg Prod.snd h
          simp at hx
      | removed =>
        rw [show leaseSelectLoop env dev (i :: rest) selC selCr selP = (dev, none) from by
          simp only [leaseSelectLoop, hf, hs]] at h
        have hx := congrArg Prod.snd h
        simp at hx
      | disconnected =>
        rw [show leaseSelectLoop env dev (i :: rest) selC selCr selP = (dev, none) from by
          simp only [leaseSelectLoop, hf, hs]] at h
        have hx := congrArg Prod.snd h
        simp at hx
      | unavailable =>
        rw [show leaseSelectLoop env dev (i :: rest) selC selCr selP = (dev, none) from by
          simp only [leaseSelectLoop, hf, hs]] at h
        have hx := congrArg Prod.snd h
        simp at hx

theorem createLease_eval_success (env : LeaseEnv) (dev devL : MDevice)
    (ids selC selCr selP : List Nat)
    (hloop : leaseSelectLoop env dev ids [] [] [] = (devL, some (selC, selCr, selP)))
    (hio : env.leaseIoctlOk = true) :
    createLease env dev ids =
      ({ stampPlanesGo devL.nextLeaseId selP
            (stampCrtcsGo devL.nextLeaseId selCr
              (stampConnectorsGo devL devL.nextLeaseId selC []).1) with
          leases := (stampPlanesGo devL.nextLeaseId selP
            (stampCrtcsGo devL.nextLeaseId selCr
              (stampConnectorsGo devL devL.nextLeaseId selC []).1)).leases ++
            [(devL.nextLeaseId, ⟨selC, selCr, selP, false⟩)],
          nextLeaseId := (stampPlanesGo devL.nextLeaseId selP
            (stampCrtcsGo devL.nextLeaseId selCr
              (stampConnectorsGo devL devL.nextLeaseId selC []).1)).nextLeaseId + 1 },
       (stampConnectorsGo devL devL.nextLeaseId selC []).2,
       some ⟨devL.nextLeaseId, env.leaseFd⟩) := by
  simp only [createLease, hloop, hio, Bool.not_true, Bool.false_eq_true, if_false]

theorem createLease_success_spec (env : LeaseEnv) (dev : MDevice) (ids : List Nat)
    (dev2 : MDevice) (evs : List (Nat × CEvent)) (h : MLeaseHandle)
    (hFresh : lookupLease dev.leases dev.nextLeaseId = none)
    (hrun : createLease env dev ids = (dev2, evs, some h)) :
    h.id = dev.nextLeaseId ∧ h.fd = env.leaseFd ∧
    dev2.nextLeaseId = dev.nextLeaseId + 1 ∧
    (∃ selCr selP,
      lookupLease dev2.leases h.id = some ⟨ids, selCr, selP, false⟩ ∧
      (∀ x ∈ selCr, ∃ cr, findCrtc dev2 x = some cr ∧ cr.lease = some h.id) ∧
      (∀ x ∈ selP, ∃ p, findPlane dev2 x = some p ∧ p.lease = some h.id)) ∧
    (∀ cid ∈ ids, ∃ c, findConnector dev2 cid = some c ∧ c.lease = some h.id) ∧
    (∀ cid ∈ ids, (cid, CEvent.unavailableEv) ∈ evs) ∧
    (∀ cid ∈ ids, ∃ c, findConnector dev cid = some c ∧
      c.frontState = FrontState.connected true) := by
  rcases hloop : leaseSelectLoop env dev ids [] [] [] with ⟨devL, o⟩
  have hfr := leaseSelectLoop_frame env ids dev [] [] []
  rw [hloop] at hfr
  rcases o with _ | sel
  · simp only [createLease, hloop] at hrun
    have hx : (none : Option MLeaseHandle) = some h :=
      congrArg (fun t => t.2.2) hrun
    exact Option.noConfusion hx
  · rcases sel with ⟨selC, selCr, selP⟩
    by_cases hio : env.leaseIoctlOk = true
    · obtain ⟨hsel, hpre, hselCr, hselP⟩ :=
        leaseSelectLoop_success env ids dev [] [] [] devL selC selCr selP hloop
      have hselC : selC = ids := by simpa using hsel
      subst hselC
      rw [createLease_eval_success env dev devL selC selC selCr selP hloop hio] at hrun
      simp only [Prod.mk.injEq] at hrun
      obtain ⟨hd2, hev, hh⟩ := hrun
      subst hd2
      injection hh with hh
      subst hh
      subst hev
      have hdevLpre : ∀ cid ∈ selC,
          (findConnector devL cid).map (fun c => c.frontState) =
            some (FrontState.connected true) := by
        intro cid hcid
        obtain ⟨c, hc, hcs⟩ := hpre cid hcid
        have htr := devFrame_connState dev devL hfr cid
        rw [hc, Option.map_some', hcs] at htr
        exact htr
      have hpresC : ∀ cid ∈ selC, (findConnector devL cid).isSome = true := by
        intro cid hcid
        have := hdevLpre cid hcid
        rcases hq : findConnector devL cid with _ | cL
        · rw [hq] at this
          simp at this
        · rfl
      have hstateC : ∀ cid ∈ selC,
          (findConnector devL cid).map (fun c => c.frontState) =
              some (FrontState.connected true) ∨
            (cid, CEvent.unavailableEv) ∈ ([] : List (Nat × CEvent)) := by
        intro cid hcid
        exact Or.inl (hdevLpre cid hcid)
      obtain ⟨s1, s2, s3, s4, s5, s6, _, _⟩ :=
        stampConnectorsGo_spec devL.nextLeaseId selC devL [] hpresC hstateC
      have hpresCr : ∀ x ∈ selCr,
          (findCrtc (stampConnectorsGo devL devL.nextLeaseId selC []).1 x).isSome = true := by
        intro x hx
        have hxp : (findCrtc devL x).isSome = true := by
          rcases hselCr x hx with hin | hin
          · exact absurd hin (List.not_mem_nil _)
          · exact hin
        unfold findCrtc
        rw [s3]
        exact hxp
      obtain ⟨c1, c2, c3, c4, c5, c6⟩ :=
        stampCrtcsGo_spec devL.nextLeaseId selCr
          (stampConnectorsGo devL devL.nextLeaseId selC []).1 hpresCr
      have hpresP : ∀ x ∈ selP,
          (findPlane (stampCrtcsGo devL.nextLeaseId selCr
            (stampConnectorsGo devL devL.nextLeaseId selC []).1) x).isSome = true := by
        intro x hx
        have hxp : (findPlane devL x).isSome = true := by
          rcases hselP x hx with hin | hin
          · exact absurd hin (List.not_mem_nil _)
          · exact hin
        unfold findPlane
        rw [c3, s4]
        exact hxp
      obtain ⟨p1, p2, p3, p4, p5, p6⟩ :=
        stampPlanesGo_spec devL.nextLeaseId selP
          (stampCrtcsGo devL.nextLeaseId selCr
            (stampConnectorsGo devL devL.nextLeaseId selC []).1) hpresP
      refine ⟨hfr.2.1, rfl, ?_, ?_, ?_, ?_, hpre⟩
      · show (stampPlanesGo devL.nextLeaseId selP
            (stampCrtcsGo devL.nextLeaseId selCr
              (stampConnectorsGo devL devL.nextLeaseId selC []).1)).nextLeaseId + 1 =
          dev.nextLeaseId + 1
        rw [p5, c5, s6, hfr.2.1]
      · refine ⟨selCr, selP, ?_, ?_, ?_⟩
        · show lookupLease ((stampPlanesGo devL.nextLeaseId selP
              (stampCrtcsGo devL.nextLeaseId selCr
                (stampConnectorsGo devL devL.nextLeaseId selC []).1)).leases ++
              [(devL.nextLeaseId, ⟨selC, selCr, selP, false⟩)]) devL.nextLeaseId =
            some ⟨selC, selCr, selP, false⟩
          rw [p4, c4, s5, hfr.1]
          refine lookupLease_append_fresh dev.leases devL.nextLeaseId _ ?_
          rw [hfr.2.1]
          exact hFresh
        · intro x hx
          have hstamped := c1 x hx
          obtain ⟨cr, hcr, hcrl⟩ := hstamped
          refine ⟨cr, ?_, hcrl⟩
          show findCrtc (stampPlanesGo devL.nextLeaseId selP
            (stampCrtcsGo devL.nextLeaseId selCr
              (stampConnectorsGo devL devL.nextLeaseId selC []).1)) x = some cr
          unfold findCrtc
          rw [p3]
          exact hcr
        · intro x hx
          exact p1 x hx
      · intro cid hcid
        obtain ⟨c, hc, hcl⟩ := s1 cid hcid
        refine ⟨c, ?_, hcl⟩
        show findConnector (stampPlanesGo devL.nextLeaseId selP
          (stampCrtcsGo devL.nextLeaseId selCr
            (stampConnectorsGo devL devL.nextLeaseId selC []).1)) cid = some c
        unfold findConnector
        rw [p2, c2]
        exact hc
      · intro cid hcid
        exact s2 cid hcid
    · rw [Bool.not_eq_true] at hio
      simp only [createLease, hloop, hio, Bool.not_false, if_true] at hrun
      have hx : (none : Option MLeaseHandle) = some h :=
        congrArg (fun t => t.2.2) hrun
      exact Option.noConfusion hx

theorem createLease_fail_spec (env : LeaseEnv) (dev : MDevice) (ids : List Nat)
    (dev2 : MDevice) (evs : List (Nat × CEvent))
    (hrun : createLease env dev ids = (dev2, evs, none)) :
    dev2.leases = dev.leases ∧ dev2.nextLeaseId = dev.nextLeaseId ∧
    evs = [] ∧
    (∀ lid, noLeaseStamp dev lid → noLeaseStamp dev2 lid) := by
  rcases hloop : leaseSelectLoop env dev ids [] [] [] with ⟨devL, o⟩
  have hfr := leaseSelectLoop_frame env ids dev [] [] []
  rw [hloop] at hfr
  rcases o with _ | sel
  · simp only [createLease, hloop] at hrun
    simp only [Prod.mk.injEq] at hrun
    obtain ⟨h1, h2, _⟩ := hrun
    subst h1
    subst h2
    exact ⟨hfr.1, hfr.2.1, rfl, fun lid hl => hfr.2.2.2.2.2 lid hl⟩
  · rcases sel with ⟨selC, selCr, selP⟩
    by_cases hio : env.leaseIoctlOk = true
    · rw [createLease_eval_success env dev devL ids selC selCr selP hloop hio] at hrun
      have hx : some (⟨devL.nextLeaseId, env.leaseFd⟩ : MLeaseHandle) = none :=
        congrArg (fun t => t.2.2) hrun
      exact Option.noConfusion hx
    · rw [Bool.not_eq_true] at hio
      simp only [createLease, hloop, hio, Bool.not_false, if_true] at hrun
      simp only [Prod.mk.injEq] at hrun
      obtain ⟨h1, h2, _⟩ := hrun
      subst h1
      subst h2
      exact ⟨hfr.1, hfr.2.1, rfl, fun lid hl => hfr.2.2.2.2.2 lid hl⟩

theorem tryRevoke_clears (r : Nat → Bool) (dev : MDevice) (lid : Nat) (d : MLeaseData)
    (hrev : d.revoked = false) (hok : (tryRevoke r dev lid d).1 = true) :
    (∀ c ∈ (tryRevoke r dev lid d).2.1.connectors,
      d.connectors.contains c.id = true → c.lease = none) ∧
    (∀ cr ∈ (tryRevoke r dev lid d).2.1.crtcs,
      d.crtcs.contains cr.id = true → cr.lease = none) ∧
    (∀ p ∈ (tryRevoke r dev lid d).2.1.planes,
      d.planes.contains p.id = true → p.lease = none) := by
  unfold tryRevoke at hok ⊢
  rw [if_neg (by rw [hrev]; simp)] at hok ⊢
  by_cases hr : r lid = true
  · rw [if_pos hr]
    refine ⟨?_, ?_, ?_⟩ <;> intro x hx hmem
    · obtain ⟨c, hc, hcx⟩ := List.mem_map.mp hx
      by_cases hm : d.connectors.contains c.id = true
      · rw [if_pos hm] at hcx
        rw [← hcx]
      · rw [Bool.not_eq_true] at hm
        rw [if_neg (by rw [hm]; simp)] at hcx
        subst hcx
        rw [hm] at hmem
        exact absurd hmem (by simp)
    · obtain ⟨c, hc, hcx⟩ := List.mem_map.mp hx
      by_cases hm : d.crtcs.contains c.id = true
      · rw [if_pos hm] at hcx
        rw [← hcx]
      · rw [Bool.not_eq_true] at hm
        rw [if_neg (by rw [hm]; simp)] at hcx
        subst hcx
        rw [hm] at hmem
        exact absurd hmem (by simp)
    · obtain ⟨c, hc, hcx⟩ := List.mem_map.mp hx
      by_cases hm : d.planes.contains c.id = true
      · rw [if_pos hm] at hcx
        rw [← hcx]
      · rw [Bool.not_eq_true] at hm
        rw [if_neg (by rw [hm]; simp)] at hcx
        subst hcx
        rw [hm] at hmem
        exact absurd hmem (by simp)
  · rw [Bool.not_eq_true] at hr
    rw [if_neg (by rw [hr]; simp)] at hok
    simp at hok

theorem findFreeCrtc_unleased (dev : MDevice) (cands : List Nat) (cr : MCrtc)
    (h : findFreeCrtc dev cands = some cr) :
    cr.connector = none ∧ cr.lease = none := by
  induction cands with
  | nil => exact absurd h (by simp [findFreeCrtc])
  | cons x rest ih =>
    rcases hf : findCrtc dev x with _ | cr0
    · unfold findFreeCrtc at h
      rw [hf] at h
      exact ih h
    · simp only [findFreeCrtc, hf] at h
      split at h
      · rename_i hcond
        injection h with heq
        subst heq
        exact hcond
      · exact ih h

theorem findFreePrimaryPlane_unleased (dev : MDevice) (pids : List Nat) (p : MPlane)
    (h : findFreePrimaryPlane dev pids = some p) :
    p.ty = PlaneTypeM.primary ∧ p.assigned = false ∧ p.lease = none := by
  induction pids with
  | nil => exact absurd h (by simp [findFreePrimaryPlane])
  | cons x rest ih =>
    rcases hf : findPlane dev x with _ | p0
    · unfold findFreePrimaryPlane at h
      rw [hf] at h
      exact ih h
    · simp only [findFreePrimaryPlane, hf] at h
      split at h
      · rename_i hcond
        injection h with heq
        subst heq
        exact ⟨hcond.1, hcond.2.1, hcond.2.2.1⟩
      · exact ih h

theorem findFreeCursorPlane_unleased (dev : MDevice) (pids : List Nat) (p : MPlane)
    (h : findFreeCursorPlane dev pids = some p) :
    p.ty = PlaneTypeM.cursor ∧ p.assigned = false ∧ p.lease = none := by
  induction pids with
  | nil => exact absurd h (by simp [findFreeCursorPlane])
  | cons x rest ih =>
    rcases hf : findPlane dev x with _ | p0
    · unfold findFreeCursorPlane at h
      rw [hf] at h
      exact ih h
    · simp only [findFreeCursorPlane, hf] at h
      split at h
      · rename_i hcond
        injection h with heq
        subst heq
        exact ⟨hcond.1, hcond.2.1, hcond.2.2.1⟩
      · exact ih h

theorem resetPlanesGo_fbid (pres : MPreserve) (ps : List MPlane) (dev : MDevice)
    (p : MPlane) (hp : p ∈ ps) (hnp : pres.planes.contains p.id = false) :
    (⟨p.id, .fbId, 0⟩ : PropChange) ∈ (resetPlanesGo pres ps dev).2 := by
  induction ps generalizing dev with
  | nil => cases hp
  | cons q rest ih =>
    rcases List.mem_cons.mp hp with h | h
    · subst h
      unfold resetPlanesGo
      rw [if_neg (by rw [hnp]; simp)]
      simp
    · unfold resetPlanesGo
      by_cases hq : pres.planes.contains q.id = true
      · rw [if_pos hq]
        exact ih _ h
      · rw [Bool.not_eq_true] at hq
        rw [if_neg (by rw [hq]; simp)]
        simp only [List.mem_append, List.mem_cons]
        right
        exact ih _ h

/-! ### Claim C7 -/

/-- C7: `create_lease` succeeds only if every requested connector exists in
state Connected with non_desktop (a stale lease on it is revoked first by
the loop step), and a fresh unleased CRTC and primary plane are selected
per connector; on success the fresh lease id `next_lease_id` is stamped on
every participating connector, CRTC and plane, every requested connector
records an Unavailable event, the lease data is registered under the fresh
id, the id counter advances, and the handle carries the kernel lease fd;
on any failure no lease is registered, the id counter is unchanged, no
events are sent, and no object acquires the prospective lease id. -/
theorem C7_create_lease (env : LeaseEnv) (dev : MDevice) (ids : List Nat)
    (dev2 : MDevice) (evs : List (Nat × CEvent)) (res : Option MLeaseHandle)
    (hFresh : lookupLease dev.leases dev.nextLeaseId = none)
    (hrun : createLease env dev ids = (dev2, evs, res)) :
    (∀ h, res = some h →
      h.id = dev.nextLeaseId ∧ h.fd = env.leaseFd ∧
      dev2.nextLeaseId = dev.nextLeaseId + 1 ∧
      (∃ selCr selP,
        lookupLease dev2.leases h.id = some ⟨ids, selCr, selP, false⟩ ∧
        (∀ x ∈ selCr, ∃ cr, findCrtc dev2 x = some cr ∧ cr.lease = some h.id) ∧
        (∀ x ∈ selP, ∃ p, findPlane dev2 x = some p ∧ p.lease = some h.id)) ∧
      (∀ cid ∈ ids, ∃ c, findConnector dev2 cid = some c ∧ c.lease = some h.id) ∧
      (∀ cid ∈ ids, (cid, CEvent.unavailableEv) ∈ evs) ∧
      (∀ cid ∈ ids, ∃ c, findConnector dev cid = some c ∧
        c.frontState = FrontState.connected true)) ∧
    (res = none →
      dev2.leases = dev.leases ∧ dev2.nextLeaseId = dev.nextLeaseId ∧ evs = [] ∧
      (∀ lid, noLeaseStamp dev lid → noLeaseStamp dev2 lid)) := by
  constructor
  · intro h hres
    subst hres
    exact createLease_success_spec env dev ids dev2 evs h hFresh hrun
  · intro hres
    subst hres
    exact createLease_fail_spec env dev ids dev2 evs hrun

/-- The non-desktop connector of the C7 witness device. -/
def c7conn : MConnector :=
  ⟨2, true, true, true, 0, none, [11], none, none, none, none,
    FrontState.connected true⟩

/-- The free CRTC of the C7 witness device. -/
def c7crtc : MCrtc := ⟨11, 0, none, [21], none, false, 0⟩

/-- The free primary plane of the C7 witness device. -/
def c7plane : MPlane := ⟨21, PlaneTypeM.primary, [], none, false, 0, 0, 0⟩

/-- The C7 witness device: one leasable connector, CRTC, and plane. -/
def c7dev : MDevice := ⟨[c7conn], [c7crtc], [c7plane], [], [], [], 1, false⟩

/-- Lease environment whose revocations and lease ioctl succeed. -/
def c7env : LeaseEnv := ⟨fun _ => true, true, 55⟩

theorem C7_witness :
    lookupLease c7dev.leases c7dev.nextLeaseId = none ∧
    (2, CEvent.unavailableEv) ∈ (createLease c7env c7dev [2]).2.1 ∧
    (∃ c, findConnector (createLease c7env c7dev [2]).1 2 = some c ∧
      c.lease = some 1) := by
  have h := C7_create_lease c7env c7dev [2] (createLease c7env c7dev [2]).1
    (createLease c7env c7dev [2]).2.1 (createLease c7env c7dev [2]).2.2 rfl rfl
  have hs := h.1 ⟨1, 55⟩ rfl
  refine ⟨rfl, ?_, ?_⟩
  · exact hs.2.2.2.2.2.1 2 (List.mem_cons_self 2 [])
  · exact hs.2.2.2.2.1 2 (List.mem_cons_self 2 [])

/-! ### Claim C1 -/

/-- C1 (amended): on lease creation every participating connector, CRTC
and plane is stamped with the registered lease id, a successful
`try_revoke` clears those stamps, and the solver's assignment searches
(`find free crtc` in assign_connector_crtc, the primary- and cursor-plane
searches of assign_connector_planes) never select a leased object; but the
claim that no compositor-built commit includes property changes on leased
objects fails: `reset_planes` emits FB_ID (and CRTC_ID / IN_FENCE_FD)
changes on every plane outside the preserve set, leased or not
(video.rs lines 2191-2204). -/
theorem C1_amended_lease_isolation :
    (∀ env dev ids dev2 evs h,
      lookupLease dev.leases dev.nextLeaseId = none →
      createLease env dev ids = (dev2, evs, some h) →
      ∃ selCr selP,
        lookupLease dev2.leases h.id = some ⟨ids, selCr, selP, false⟩ ∧
        (∀ cid ∈ ids, ∃ c, findConnector dev2 cid = some c ∧ c.lease = some h.id) ∧
        (∀ x ∈ selCr, ∃ cr, findCrtc dev2 x = some cr ∧ cr.lease = some h.id) ∧
        (∀ x ∈ selP, ∃ p, findPlane dev2 x = some p ∧ p.lease = some h.id)) ∧
    (∀ r dev lid d, d.revoked = false → (tryRevoke r dev lid d).1 = true →
      (∀ c ∈ (tryRevoke r dev lid d).2.1.connectors,
        d.connectors.contains c.id = true → c.lease = none) ∧
      (∀ cr ∈ (tryRevoke r dev lid d).2.1.crtcs,
        d.crtcs.contains cr.id = true → cr.lease = none) ∧
      (∀ p ∈ (tryRevoke r dev lid d).2.1.planes,
        d.planes.contains p.id = true → p.lease = none)) ∧
    (∀ dev cands cr, findFreeCrtc dev cands = some cr → cr.lease = none) ∧
    (∀ dev pids p, findFreePrimaryPlane dev pids = some p → p.lease = none) ∧
    (∀ dev pids p, findFreeCursorPlane dev pids = some p → p.lease = none) ∧
    (∀ dev pres p, p ∈ dev.planes → pres.planes.contains p.id = false →
      (⟨p.id, PropName.fbId, 0⟩ : PropChange) ∈ (resetPlanes dev pres).2) := by
  refine ⟨?_, ?_, ?_, ?_, ?_, ?_⟩
  · intro env dev ids dev2 evs h hFresh hrun
    obtain ⟨_, _, _, ⟨selCr, selP, hlk, hcr, hpl⟩, hconn, _, _⟩ :=
      createLease_success_spec env dev ids dev2 evs h hFresh hrun
    exact ⟨selCr, selP, hlk, hconn, hcr, hpl⟩
  · intro r dev lid d hrev hok
    exact tryRevoke_clears r dev lid d hrev hok
  · intro dev cands cr h
    exact (findFreeCrtc_unleased dev cands cr h).2
  · intro dev pids p h
    exact (findFreePrimaryPlane_unleased dev pids p h).2.2
  · intro dev pids p h
    exact (findFreeCursorPlane_unleased dev pids p h).2.2
  · intro dev pres p hp hnp
    exact resetPlanesGo_fbid pres dev.planes dev p hp hnp

/-- The leased plane of the C1 counterexample device. -/
def c1plane : MPlane := ⟨22, PlaneTypeM.primary, [], some 5, false, 0, 0, 0⟩

/-- The C1 counterexample device: a lease with id 5 over plane 22 is
registered, and plane 22 carries the lease stamp. -/
def c1dev : MDevice :=
  ⟨[], [], [c1plane], [], [(5, ⟨[], [], [22], false⟩)], [], 6, false⟩

/-- C1 counterexample: on a device with a registered lease over plane 22,
a full solver pass (init_drm_device) still emits CRTC_ID / FB_ID /
IN_FENCE_FD property changes on the leased plane in its reset commit, so a
commit built by the non-leased configuration path does modify a leased
object. -/
theorem C1_cex_reset_touches_leased_plane :
    lookupLease c1dev.leases 5 = some ⟨[], [], [22], false⟩ ∧
    (findPlane c1dev 22).map (fun p => p.lease) = some (some 5) ∧
    initChanges (initDrmDevice cexSolverEnv c1dev emptyPreserve) =
      some [[], [⟨22, PropName.crtcId, 0⟩, ⟨22, PropName.fbId, 0⟩,
        ⟨22, PropName.inFenceFd, -1⟩]] :=
  ⟨rfl, rfl, rfl⟩

/-- A free primary plane advertising XRGB8888, for the C1 witness. -/
def c1wplane : MPlane := ⟨30, PlaneTypeM.primary, [(xrgb8888, [0])], none, false, 0, 0, 0⟩

/-- A free cursor plane advertising ARGB8888, for the C1 witness. -/
def c1wcursor : MPlane := ⟨31, PlaneTypeM.cursor, [(argb8888, [0])], none, false, 0, 0, 0⟩

/-- The C1 witness device for the solver plane searches. -/
def c1wdev : MDevice := ⟨[], [], [c1wplane, c1wcursor], [], [], [], 0, false⟩

theorem C1_witness :
    (∃ selCr selP,
      lookupLease (createLease c7env c7dev [2]).1.leases 1 =
          some ⟨[2], selCr, selP, false⟩ ∧
        (∀ cid ∈ [2], ∃ c, findConnector (createLease c7env c7dev [2]).1 cid = some c ∧
          c.lease = some 1) ∧
        (∀ x ∈ selCr, ∃ cr, findCrtc (createLease c7env c7dev [2]).1 x = some cr ∧
          cr.lease = some 1) ∧
        (∀ x ∈ selP, ∃ p, findPlane (createLease c7env c7dev [2]).1 x = some p ∧
          p.lease = some 1)) ∧
    (∀ p ∈ (tryRevoke (fun _ => true) c1dev 5 ⟨[], [], [22], false⟩).2.1.planes,
      ([22] : List Nat).contains p.id = true → p.lease = none) ∧
    c7crtc.lease = none ∧ c1wplane.lease = none ∧ c1wcursor.lease = none ∧
    (⟨22, PropName.fbId, 0⟩ : PropChange) ∈ (resetPlanes c1dev emptyPreserve).2 := by
  refine ⟨?_, ?_, ?_, ?_, ?_, ?_⟩
  · exact C1_amended_lease_isolation.1 c7env c7dev [2] (createLease c7env c7dev [2]).1
      (createLease c7env c7dev [2]).2.1 ⟨1, 55⟩ rfl rfl
  · exact (C1_amended_lease_isolation.2.1 (fun _ => true) c1dev 5 ⟨[], [], [22], false⟩
      rfl rfl).2.2
  · exact C1_amended_lease_isolation.2.2.1 c7dev [11] c7crtc rfl
  · exact C1_amended_lease_isolation.2.2.2.1 c1wdev [30] c1wplane rfl
  · exact C1_amended_lease_isolation.2.2.2.2.1 c1wdev [31] c1wcursor rfl
  · exact C1_amended_lease_isolation.2.2.2.2.2 c1dev emptyPreserve c1plane
      (List.mem_singleton.mpr rfl) rfl

/-! ### Claim C8: direct-scanout probe (video.rs, prepare_direct_scanout) -/

/-- Modelled from the spec: an RGBA color; solid black is the CRTC
background color. -/
structure ColorM where
  r : ℚ
  g : ℚ
  b : ℚ
  a : ℚ
deriving DecidableEq

/-- Modelled from the spec: the solid black fill color. -/
def solidBlack : ColorM := ⟨0, 0, 0, 1⟩

/-- Modelled from the spec: output/buffer transforms; the 90 and 270
degree variants swap the x and y axes. -/
inductive TransformM
  | normal
  | rotate90
  | rotate180
  | rotate270
  | flip
  | flip90
  | flip180
  | flip270
deriving DecidableEq

/-- Modelled from the spec: whether the transform swaps the axes. -/
def TransformM.swaps : TransformM → Bool
  | .rotate90 => true
  | .rotate270 => true
  | .flip90 => true
  | .flip270 => true
  | _ => false

/-- Modelled from the spec: a target rectangle in normalized device
coordinates; the full screen spans [-1, 1] in both axes. -/
structure FbRect where
  x1 : ℚ
  y1 : ℚ
  x2 : ℚ
  y2 : ℚ
  outputTransform : TransformM
deriving DecidableEq

/-- Modelled from the spec: the rectangle covers the whole screen. -/
def FbRect.isCovering (r : FbRect) : Bool :=
  decide (r.x1 ≤ -1 ∧ r.y1 ≤ -1 ∧ 1 ≤ r.x2 ∧ 1 ≤ r.y2)

/-- Modelled from the spec: a source rectangle in buffer coordinates
normalized to [0, 1]. -/
structure BufRect where
  x1 : ℚ
  y1 : ℚ
  x2 : ℚ
  y2 : ℚ
  bufferTransform : TransformM
deriving DecidableEq

/-- Modelled from the spec: the source rectangle samples the whole
source image. -/
def BufRect.isCovering (r : BufRect) : Bool :=
  decide (r.x1 ≤ 0 ∧ r.y1 ≤ 0 ∧ 1 ≤ r.x2 ∧ 1 ≤ r.y2)

/-- Modelled from the spec: how the texture read is synchronized. -/
inductive AcquireSyncM
  | noSync
  | implicit
  | syncFile (fd : Nat)
  | unnecessary
deriving DecidableEq

/-- A pixel format as the probe sees it: DRM fourcc, whether it has an
alpha channel, and the fourcc of its opaque variant if any. -/
structure FormatM where
  drm : Nat
  hasAlpha : Bool
  opaqueDrm : Option Nat
deriving DecidableEq

/-- A dmabuf: stable id, format, and layout modifier. -/
structure DmabufM where
  id : Nat
  format : FormatM
  modifier : Nat
deriving DecidableEq

/-- A texture: its format, optional dmabuf backing (none means shared
memory), and size. -/
structure TexM where
  format : FormatM
  dmabuf : Option DmabufM
  width : Nat
  height : Nat
deriving DecidableEq

/-- A `CopyTexture` render-pass operation. -/
structure CopyTexM where
  tex : TexM
  source : BufRect
  target : FbRect
  alpha : Option ℚ
  acquireSync : AcquireSyncM
deriving DecidableEq

/-- A `FillRect` render-pass operation. -/
structure FillRectM where
  rect : FbRect
  color : ColorM
deriving DecidableEq

/-- A render-pass operation (`GfxApiOpt`). -/
inductive GfxOpM
  | sync
  | fillRect (fr : FillRectM)
  | copyTexture (ct : CopyTexM)
deriving DecidableEq

/-- A render pass: the ordered operation list and the optional clear
color. -/
structure RenderPassM where
  ops : List GfxOpM
  clear : Option ColorM
deriving DecidableEq

/-- The result bundle of the probe (`DirectScanoutData` and
`DirectScanoutPosition`, video.rs lines 735-744). -/
structure DsdM where
  fbId : Nat
  dmaBufId : Nat
  srcWidth : Nat
  srcHeight : Nat
  crtcX : Int
  crtcY : Int
  crtcWidth : Int
  crtcHeight : Int
deriving DecidableEq

/-- `as i32` on a float: truncation toward zero. -/
def truncToInt (q : ℚ) : Int := q.num.tdiv (q.den : Int)

/-- The top-of-pass walk (video.rs lines 637-651): iterate the operation
list in reverse; Sync is skipped, a fill disqualifies, the first
CopyTexture is the candidate; the remaining (lower) reversed operations
are returned alongside. -/
def scanTopOp : List GfxOpM → Option (CopyTexM × List GfxOpM)
  | [] => none
  | op :: rest =>
    match op with
    | .sync => scanTopOp rest
    | .fillRect _ => none
    | .copyTexture ct => some (ct, rest)

/-- Result of the lower-operation walk (video.rs lines 659-679). -/
inductive LowerScan
  | covered
  | disqualified
  | exhausted
deriving DecidableEq

/-- The lower-operation walk: Sync skipped; a solid black fill is ignored
unless it covers the screen, in which case the walk stops successfully;
any other fill or any texture disqualifies. -/
def scanLowerOps : List GfxOpM → LowerScan
  | [] => .exhausted
  | op :: rest =>
    match op with
    | .sync => scanLowerOps rest
    | .fillRect fr =>
      if fr.color = solidBlack then
        if fr.rect.isCovering then .covered else scanLowerOps rest
      else .disqualified
    | .copyTexture _ => .disqualified

/-- Whether the candidate texture is accepted by the occlusion analysis
(video.rs lines 652-686): opaque and covering, or every lower operation
is an ignorable black fill (stopping early at a covering one) with a
black or absent clear color. -/
def topAccepted (pass : RenderPassM) (ct : CopyTexM) (lower : List GfxOpM) : Bool :=
  if !ct.tex.format.hasAlpha && ct.target.isCovering then true
  else
    match scanLowerOps lower with
    | .covered => true
    | .disqualified => false
    | .exhausted =>
      match pass.clear with
      | some c => decide (c = solidBlack)
      | none => true

/-- The CRTC rectangle computation (video.rs lines 704-721): maybe swap
the axes per the output transform, then map [-1, 1] to plane pixels;
returns (x1, y1, crtc_w, crtc_h). -/
def crtcRect (plane : MPlane) (t : FbRect) : ℚ × ℚ × ℚ × ℚ :=
  let pw : ℚ := (plane.modeW : ℚ)
  let ph : ℚ := (plane.modeH : ℚ)
  let sw := if t.outputTransform.swaps then ((t.y1, t.y2), (t.x1, t.x2))
    else ((t.x1, t.x2), (t.y1, t.y2))
  let x1 := (sw.1.1 + 1) * pw / 2
  let x2 := (sw.1.2 + 1) * pw / 2
  let y1 := (sw.2.1 + 1) * ph / 2
  let y2 := (sw.2.2 + 1) * ph / 2
  (x1, y1, x2 - x1, y2 - y1)

/-- The format lookup (video.rs lines 753-766): the plane's entry for the
dmabuf's format, else for its opaque variant; yields the advertised
modifiers. -/
def planeFormatModifiers (plane : MPlane) (dmabuf : DmabufM) : Option (List Nat) :=
  match plane.formats.find? (fun f => f.1 == dmabuf.format.drm) with
  | some f => some f.2
  | none =>
    match dmabuf.format.opaqueDrm with
    | some op =>
      match plane.formats.find? (fun f => f.1 == op) with
      | some f => some f.2
      | none => none
    | none => none

/-- `MetalConnector::prepare_direct_scanout` (video.rs lines 632-792):
the full probe.  `cache` is the scanout-buffer cache (dmabuf id to the
optional imported fb), `addFb` the oracle result of
`master.add_fb`, and the returned list the cache afterwards. -/
def prepareDirectScanout (pass : RenderPassM) (plane : MPlane)
    (cursorEnabled : Bool) (cache : List (Nat × Option Nat)) (addFb : Option Nat) :
    Option DsdM × List (Nat × Option Nat) :=
  match scanTopOp pass.ops.reverse with
  | none => (none, cache)
  | some (ct, lower) =>
    if ct.alpha.isSome then (none, cache)
    else if !topAccepted pass ct lower then (none, cache)
    else if ct.acquireSync = AcquireSyncM.noSync then (none, cache)
    else if ct.source.bufferTransform ≠ ct.target.outputTransform then (none, cache)
    else if !ct.source.isCovering then (none, cache)
    else if ct.target.x1 < -1 ∨ ct.target.y1 < -1 ∨ ct.target.x2 > 1 ∨
        ct.target.y2 > 1 then (none, cache)
    else if (crtcRect plane ct.target).2.2.1 < 0 ∨
        (crtcRect plane ct.target).2.2.2 < 0 then (none, cache)
    else if cursorEnabled = true ∧
        ¬(((ct.tex.width : ℚ) = (crtcRect plane ct.target).2.2.1) ∧
          ((ct.tex.height : ℚ) = (crtcRect plane ct.target).2.2.2)) then (none, cache)
    else
      match ct.tex.dmabuf with
      | none => (none, cache)
      | some dmabuf =>
        match cacheLookup cache dmabuf.id with
        | some fbOpt =>
          (fbOpt.map (fun fb =>
            ⟨fb, dmabuf.id, ct.tex.width, ct.tex.height,
             truncToInt (crtcRect plane ct.target).1,
             truncToInt (crtcRect plane ct.target).2.1,
             truncToInt (crtcRect plane ct.target).2.2.1,
             truncToInt (crtcRect plane ct.target).2.2.2⟩),
           cache)
        | none =>
          match planeFormatModifiers plane dmabuf with
          | none => (none, cache)
          | some mods =>
            if !mods.contains dmabuf.modifier then (none, cache)
            else
              match addFb with
              | some fb =>
                (some ⟨fb, dmabuf.id, ct.tex.width, ct.tex.height,
                  truncToInt (crtcRect plane ct.target).1,
                  truncToInt (crtcRect plane ct.target).2.1,
                  truncToInt (crtcRect plane ct.target).2.2.1,
                  truncToInt (crtcRect plane ct.target).2.2.2⟩,
                 cache ++ [(dmabuf.id, some fb)])
              | none => (none, cache ++ [(dmabuf.id, none)])

/-- C8 amended: the probe yields a candidate only if the reversed
operation walk finds a CopyTexture top-most with no alpha factor, the
occlusion analysis accepts it (opaque and covering, or lower operations
all ignorable black fills with black or absent clear), synchronization is
available, source and target transforms agree, the source rectangle
covers the source image, the target lies within the screen and is not
axis-flipped, no scaling happens while the hardware cursor is enabled,
and the texture is dmabuf-backed; the plane must advertise the dmabuf's
format (or its opaque variant) with a matching modifier ONLY on a cache
miss — a scanout-cache hit returns the cached fb without any format or
modifier check (video.rs lines 746-752). -/
theorem C8_amended_probe_conditions (pass : RenderPassM) (plane : MPlane)
    (cursorEnabled : Bool) (cache : List (Nat × Option Nat)) (addFb : Option Nat)
    (d : DsdM)
    (h : (prepareDirectScanout pass plane cursorEnabled cache addFb).1 = some d) :
    ∃ ct lower, scanTopOp pass.ops.reverse = some (ct, lower) ∧
      ct.alpha = none ∧
      topAccepted pass ct lower = true ∧
      ct.acquireSync ≠ AcquireSyncM.noSync ∧
      ct.source.bufferTransform = ct.target.outputTransform ∧
      ct.source.isCovering = true ∧
      ¬(ct.target.x1 < -1 ∨ ct.target.y1 < -1 ∨ ct.target.x2 > 1 ∨
        ct.target.y2 > 1) ∧
      ¬((crtcRect plane ct.target).2.2.1 < 0 ∨ (crtcRect plane ct.target).2.2.2 < 0) ∧
      ¬(cursorEnabled = true ∧
        ¬(((ct.tex.width : ℚ) = (crtcRect plane ct.target).2.2.1) ∧
          ((ct.tex.height : ℚ) = (crtcRect plane ct.target).2.2.2))) ∧
      ∃ dmabuf, ct.tex.dmabuf = some dmabuf ∧ d.dmaBufId = dmabuf.id ∧
        (cacheLookup cache dmabuf.id = some (some d.fbId) ∨
          (cacheLookup cache dmabuf.id = none ∧ addFb = some d.fbId ∧
            ∃ mods, planeFormatModifiers plane dmabuf = some mods ∧
              mods.contains dmabuf.modifier = true)) := by
  unfold prepareDirectScanout at h
  rcases htop : scanTopOp pass.ops.reverse with _ | ⟨ct, lower⟩
  · rw [htop] at h
    simp at h
  · simp only [htop] at h
    by_cases ha : ct.alpha.isSome = true
    · rw [if_pos ha] at h
      simp at h
    · rw [if_neg ha] at h
      have halpha : ct.alpha = none := by
        rcases hao : ct.alpha with _ | a
        · rfl
        · exact absurd (by rw [hao]; rfl) ha
      by_cases hacc : topAccepted pass ct lower = true
      · rw [if_neg (by rw [hacc]; simp)] at h
        by_cases hsync : ct.acquireSync = AcquireSyncM.noSync
        · rw [if_pos hsync] at h
          simp at h
        · rw [if_neg hsync] at h
          by_cases htr : ct.source.bufferTransform = ct.target.outputTransform
          · rw [if_neg (not_not_intro htr)] at h
            by_cases hsrc : ct.source.isCovering = true
            · rw [if_neg (by rw [hsrc]; simp)] at h
              by_cases hb : (ct.target.x1 < -1 ∨ ct.target.y1 < -1 ∨
                  ct.target.x2 > 1 ∨ ct.target.y2 > 1)
              · rw [if_pos hb] at h
                simp at h
              · rw [if_neg hb] at h
                by_cases hng : ((crtcRect plane ct.target).2.2.1 < 0 ∨
                    (crtcRect plane ct.target).2.2.2 < 0)
                · rw [if_pos hng] at h
                  simp at h
                · rw [if_neg hng] at h
                  by_cases hcu : (cursorEnabled = true ∧
                      ¬(((ct.tex.width : ℚ) = (crtcRect plane ct.target).2.2.1) ∧
                        ((ct.tex.height : ℚ) = (crtcRect plane ct.target).2.2.2)))
                  · rw [if_pos hcu] at h
                    simp at h
                  · rw [if_neg hcu] at h
                    rcases hdm : ct.tex.dmabuf with _ | dmabuf
                    · simp only [hdm] at h
                      simp at h
                    · simp only [hdm] at h
                      rcases hcl : cacheLookup cache dmabuf.id with _ | fbOpt
                      · simp only [hcl] at h
                        rcases hfm : planeFormatModifiers plane dmabuf with _ | mods
                        · simp only [hfm] at h
                          simp at h
                        · simp only [hfm] at h
                          by_cases hmod : mods.contains dmabuf.modifier = true
                          · rw [if_neg (by rw [hmod]; simp)] at h
                            rcases haf : addFb with _ | fb
                            · simp only [haf] at h
                              simp at h
                            · simp only [haf, Option.some.injEq] at h
                              subst h
                              exact ⟨ct, lower, rfl, halpha, hacc, hsync, htr,
                                hsrc, hb, hng, hcu, dmabuf, hdm, rfl,
                                Or.inr ⟨hcl, rfl, mods, hfm, hmod⟩⟩
                          · rw [Bool.not_eq_true] at hmod
                            rw [if_pos (by rw [hmod]; rfl)] at h
                            simp at h
                      · simp only [hcl] at h
                        rcases fbOpt with _ | fb
                        · simp at h
                        · rw [Option.map_some', Option.some.injEq] at h
                          subst h
                          exact ⟨ct, lower, rfl, halpha, hacc, hsync, htr,
                            hsrc, hb, hng, hcu, dmabuf, hdm, rfl, Or.inl hcl⟩
            · rw [Bool.not_eq_true] at hsrc
              rw [if_pos (by rw [hsrc]; rfl)] at h
              simp at h
          · rw [if_pos htr] at h
            simp at h
      · rw [Bool.not_eq_true] at hacc
        rw [if_pos (by rw [hacc]; rfl)] at h
        simp at h

/-- The opaque format of the C8 counterexample texture. -/
def c8fmt : FormatM := ⟨100, false, none⟩

/-- The dmabuf backing the C8 counterexample texture. -/
def c8dmabuf : DmabufM := ⟨9, c8fmt, 3⟩

/-- The C8 counterexample texture: opaque, dmabuf-backed, 800x600. -/
def c8tex : TexM := ⟨c8fmt, some c8dmabuf, 800, 600⟩

/-- The full-screen target rectangle of the C8 counterexample. -/
def c8target : FbRect := ⟨-1, -1, 1, 1, TransformM.normal⟩

/-- The covering source rectangle of the C8 counterexample. -/
def c8src : BufRect := ⟨0, 0, 1, 1, TransformM.normal⟩

/-- The C8 counterexample CopyTexture: no alpha, implicit sync. -/
def c8ct : CopyTexM := ⟨c8tex, c8src, c8target, none, AcquireSyncM.implicit⟩

/-- The C8 counterexample pass: a single full-screen CopyTexture. -/
def c8pass : RenderPassM := ⟨[GfxOpM.copyTexture c8ct], none⟩

/-- The C8 counterexample plane: it advertises no formats at all. -/
def c8plane : MPlane := ⟨40, PlaneTypeM.primary, [], none, false, 0, 800, 600⟩

/-- C8 counterexample: with a full-screen opaque dmabuf CopyTexture pass
and a plane that advertises no format whatsoever, the probe still returns
a candidate when the scanout cache holds an imported fb for the dmabuf id
(the cache-hit path, video.rs lines 746-752, performs no format or
modifier check), while the identical probe with an empty cache returns
none precisely because the format lookup fails — so the claim's
unconditional format/modifier requirement is false. -/
theorem c8probe_cache_hit :
    (prepareDirectScanout c8pass c8plane false [(9, some 77)] (some 123)).1 =
      some ⟨77, 9, 800, 600, 0, 0, 800, 600⟩ := by
  norm_num [prepareDirectScanout, scanTopOp, topAccepted, scanLowerOps, crtcRect,
    cacheLookup, planeFormatModifiers, truncToInt, c8pass, c8ct, c8tex, c8target,
    c8src, c8fmt, c8dmabuf, c8plane, FbRect.isCovering, BufRect.isCovering,
    TransformM.swaps, solidBlack, List.find?]
  rw [if_neg (fun hx => AcquireSyncM.noConfusion hx)]

theorem c8probe_miss_none :
    (prepareDirectScanout c8pass c8plane false [] (some 123)).1 = none := by
  norm_num [prepareDirectScanout, scanTopOp, topAccepted, scanLowerOps, crtcRect,
    cacheLookup, planeFormatModifiers, truncToInt, c8pass, c8ct, c8tex, c8target,
    c8src, c8fmt, c8dmabuf, c8plane, FbRect.isCovering, BufRect.isCovering,
    TransformM.swaps, solidBlack, List.find?]

theorem C8_cex_cache_hit_skips_format_check :
    c8plane.formats = [] ∧
    (prepareDirectScanout c8pass c8plane false [(9, some 77)] (some 123)).1 =
      some ⟨77, 9, 800, 600, 0, 0, 800, 600⟩ ∧
    (prepareDirectScanout c8pass c8plane false [] (some 123)).1 = none :=
  ⟨rfl, c8probe_cache_hit, c8probe_miss_none⟩

theorem C8_witness :
    (prepareDirectScanout c8pass c8plane false [(9, some 77)] (some 123)).1 =
      some ⟨77, 9, 800, 600, 0, 0, 800, 600⟩ ∧
    (∃ ct lower, scanTopOp c8pass.ops.reverse = some (ct, lower) ∧
      ct.alpha = none ∧ topAccepted c8pass ct lower = true) := by
  have h := C8_amended_probe_conditions c8pass c8plane false [(9, some 77)]
    (some 123) ⟨77, 9, 800, 600, 0, 0, 800, 600⟩ c8probe_cache_hit
  obtain ⟨ct, lower, h1, h2, h3, _⟩ := h
  exact ⟨c8probe_cache_hit, ct, lower, h1, h2, h3⟩
